import Mathlib

/-!
Verification development for the per-iteration compute pipeline of the
CUDA path tracer in `src/pathtrace.cu`.

The kernels of `pathtrace.cu` are embedded shallowly over exact rational
arithmetic.  Device buffers become Lean lists, each `__global__` kernel
becomes a pure function mapped over the index range of its launch, and the
host driver `pathtrace` becomes a fuel-indexed loop (the fuel
`traceDepth + 1` dominates the loop's actual trip count).  Functions that
live in headers outside `src/` (thrust, glm, `utilities.h`,
`intersections.h`, `interactions.h`) are modelled from the specification:
either as fields of the `Externals` record of external primitives, over which
every theorem is parametric, or as explicitly `Modelled from the spec`
definitions.

Compile-time configuration of the source file (`pathtrace.cu`, lines
17-21): MATSORT 0, STREAMCOMP 1, ERRORCHECK 1, ACCELSTRUCT 1, PROCTEXT 1.
The pipeline is embedded with STREAMCOMP/ACCELSTRUCT/PROCTEXT fixed to
their compiled values and the material sort kept as an explicit boolean
parameter, since the claims compare both settings of that stage.
-/

/-- Exact-rational model of `glm::vec3`. -/
structure Vec3 where
  x : ℚ
  y : ℚ
  z : ℚ
deriving DecidableEq

/-- Exact-rational model of `glm::vec2`. -/
structure Vec2 where
  x : ℚ
  y : ℚ
deriving DecidableEq

def Vec3.add (a b : Vec3) : Vec3 := ⟨a.x + b.x, a.y + b.y, a.z + b.z⟩

def Vec3.sub (a b : Vec3) : Vec3 := ⟨a.x - b.x, a.y - b.y, a.z - b.z⟩

/-- Componentwise (Hadamard) product, glm's `vec3 * vec3`. -/
def Vec3.mul (a b : Vec3) : Vec3 := ⟨a.x * b.x, a.y * b.y, a.z * b.z⟩

/-- Scalar multiple, glm's `vec3 * float`. -/
def Vec3.smul (s : ℚ) (a : Vec3) : Vec3 := ⟨s * a.x, s * a.y, s * a.z⟩

instance : Add Vec3 := ⟨Vec3.add⟩
instance : Sub Vec3 := ⟨Vec3.sub⟩
instance : Mul Vec3 := ⟨Vec3.mul⟩

def Vec3.zero : Vec3 := ⟨0, 0, 0⟩

def Vec3.one : Vec3 := ⟨1, 1, 1⟩

instance : Inhabited Vec3 := ⟨Vec3.zero⟩

instance : Inhabited Vec2 := ⟨⟨0, 0⟩⟩

/-- Opaque model of a `glm::mat4` (only ever passed to external glm code). -/
abbrev Mat4 := List ℚ

/-- `Ray` from `sceneStructs.h` as used by `pathtrace.cu`. -/
structure Ray where
  origin : Vec3
  direction : Vec3
deriving DecidableEq

/-- `PathSegment` from `sceneStructs.h`: ray, accumulated throughput color,
originating pixel index, remaining-bounce counter (`int`, so it may go
negative — modelled as `ℤ`). -/
structure PathSegment where
  ray : Ray
  color : Vec3
  pixelIndex : ℕ
  remainingBounces : ℤ
deriving DecidableEq

instance : Inhabited PathSegment :=
  ⟨⟨⟨Vec3.zero, Vec3.zero⟩, Vec3.zero, 0, 0⟩⟩

/-- `ShadeableIntersection` from `sceneStructs.h`. -/
structure ShadeableIntersection where
  t : ℚ
  materialId : ℕ
  surfaceNormal : Vec3
  uvs : Vec2
deriving DecidableEq

/-- The all-zero intersection record: `cudaMemset(dev_intersections, 0, ...)`
clears every record to this value before each intersection pass. -/
def zeroSI : ShadeableIntersection := ⟨0, 0, Vec3.zero, ⟨0, 0⟩⟩

instance : Inhabited ShadeableIntersection := ⟨zeroSI⟩

/-- Geometry type tags used by `pathtrace.cu`
(`CUBE`/`SPHERE`/`TRIANGLE`/`DIAMOND`/`MANDELBULB`). -/
inductive GeomType where
  | CUBE
  | SPHERE
  | TRIANGLE
  | DIAMOND
  | MANDELBULB
deriving DecidableEq

/-- The fields of `Geom` (`sceneStructs.h`) that `pathtrace.cu` reads:
the type tag, the material reference and the inverse transform (the latter
only ever flows into external glm/utility code). -/
structure Geom where
  type : GeomType
  materialid : ℕ
  inverseTransform : Mat4
deriving DecidableEq

instance : Inhabited Geom := ⟨⟨GeomType.SPHERE, 0, []⟩⟩

/-- The fields of `Material` (`sceneStructs.h`) that `pathtrace.cu` reads.
`textureOffset = -2` is the texture-load-error sentinel; `-1` means no
texture; `normMapOffset > -1` means a normal map is present. -/
structure Material where
  color : Vec3
  emittance : ℚ
  textureOffset : ℤ
  normMapOffset : ℤ
  tex_width : ℤ
  tex_height : ℤ
  n_m_width : ℤ
  n_m_height : ℤ
deriving DecidableEq

instance : Inhabited Material := ⟨⟨Vec3.zero, 0, -1, -1, 0, 0, 0, 0⟩⟩

/-- Axis-aligned bounding volume of an acceleration node (spec section 3). -/
structure Bounds where
  bmin : Vec3
  bmax : Vec3
deriving DecidableEq

/-- `LinearKDNode` as used by `computeIntersectionsKD`: bounds, a
primitive range (leaf iff `nPrimitives > 0`), and the flattened-array
offset of the second child for interior nodes. -/
structure LinearKDNode where
  bounds : Bounds
  primitivesOffset : ℕ
  secondChildOffset : ℕ
  nPrimitives : ℕ
deriving DecidableEq

instance : Inhabited LinearKDNode := ⟨⟨⟨Vec3.zero, Vec3.zero⟩, 0, 0, 0⟩⟩

/-- Result of one primitive intersection test (`intersections.h`): the
parametric distance `t` (non-positive means miss) and the out-parameters
`tmp_intersect`, `tmp_normal`, `outside`. -/
structure IsectRes where
  t : ℚ
  point : Vec3
  normal : Vec3
  outside : Bool
deriving DecidableEq

/-- C float truncation `(int)q`: toward zero. -/
def toIntC (q : ℚ) : ℤ := if 0 ≤ q then ⌊q⌋ else -⌊-q⌋

/-- Largest finite `float`, the initial `t_min = FLT_MAX` of both
intersection kernels. -/
def FLT_MAX : ℚ := (2 ^ 24 - 1) * 2 ^ 104

/-- External primitives used by `pathtrace.cu` but defined outside `src/`
(thrust, glm, `utilities.h`, `intersections.h`, `interactions.h`).  Every
pipeline definition is parametric over this record; concrete theorems
instantiate it.  Fields:
`utilhash` (`utilities.h`), `u01` (one draw of
`thrust::uniform_real_distribution<float>(0,1)` from an engine state),
`normalize3` (`glm::normalize`), the five primitive intersection tests and
the bounds test (`intersections.h`; `mandelbulbIT` also produces the
procedural `resColor` out-parameter), `getPointOnRay` and `multiplyMV`
(`utilities.h`/`intersections.h`), `randomHemisphere`
(`calculateRandomDirectionInHemisphere`, `interactions.h`), the UV and
tangent-frame helpers, `sinf`, and `palette`. -/
structure Externals where
  utilhash : ℕ → ℕ
  u01 : ℕ → ℚ × ℕ
  normalize3 : Vec3 → Vec3
  boxIT : Geom → Ray → IsectRes
  sphereIT : Geom → Ray → IsectRes
  triangleIT : Geom → Ray → IsectRes
  diamondIT : Geom → Ray → IsectRes
  mandelbulbIT : Geom → Ray → IsectRes × Vec3
  boundsIT : Bounds → Ray → ℚ
  getPointOnRay : Ray → ℚ → Vec3
  randomHemisphere : Vec3 → ℕ → Vec3
  multiplyMV : Mat4 → Vec3 → ℚ → Vec3
  computeSphereUVs : Vec3 → Vec2
  computeCubeUVs : Vec3 → Vec2
  getTriangleUVs : Geom → Vec3 → Vec2
  computeSphereTBN : Geom → Vec3 → Vec3 → Vec3 × Vec3
  tangentToWorld : Vec3 → Vec3 → Vec3 → Vec3 → Vec3
  sinf : ℚ → ℚ
  palette : ℚ → Vec3 → Vec3 → Vec3 → Vec3 → Vec3

/-- `makeSeededRandomEngine(iter, index, depth)` (`pathtrace.cu` lines
45-49): the engine state is
`utilhash((1 << 31) | (depth << 22) | iter) ^ utilhash(index)`, computed
in 32-bit unsigned arithmetic.  The engine is modelled by its seed. -/
def makeSeededRandomEngine (ext : Externals) (iter index depth : ℕ) : ℕ :=
  ((ext.utilhash (((2 ^ 31) ||| (depth <<< 22) ||| iter) % 2 ^ 32)) % 2 ^ 32) ^^^
    ((ext.utilhash (index % 2 ^ 32)) % 2 ^ 32)

/-- `Camera` fields read by `generateRayFromCamera`. -/
structure Camera where
  resx : ℕ
  resy : ℕ
  position : Vec3
  view : Vec3
  up : Vec3
  right : Vec3
  pixelLengthX : ℚ
  pixelLengthY : ℚ
deriving DecidableEq

def pixelcount (cam : Camera) : ℕ := cam.resx * cam.resy

/-- One thread of `generateRayFromCamera` (`pathtrace.cu` lines 135-162),
for the pixel with flat index `index` (`x = index % resx`,
`y = index / resx`): jittered through `u01` draws from the engine seeded
with `(iter, index, 0)`, direction un-projected through the camera basis,
throughput initialized to white, `remainingBounces` to `traceDepth`. -/
def generateOne (ext : Externals) (cam : Camera) (iter traceDepth index : ℕ) :
    PathSegment :=
  let x : ℕ := index % cam.resx
  let y : ℕ := index / cam.resx
  let rng := makeSeededRandomEngine ext iter index 0
  let d1 := ext.u01 rng
  let d2 := ext.u01 d1.2
  let px : ℚ := (x : ℚ) + d1.1
  let py : ℚ := (y : ℚ) + d2.1
  let dir := ext.normalize3
    (cam.view -
      Vec3.smul (cam.pixelLengthX * (px - (cam.resx : ℚ) * (1/2))) cam.right -
      Vec3.smul (cam.pixelLengthY * (py - (cam.resy : ℚ) * (1/2))) cam.up)
  { ray := ⟨cam.position, dir⟩
    color := Vec3.one
    pixelIndex := index
    remainingBounces := (traceDepth : ℤ) }

/-- The whole `generateRayFromCamera` launch: one path per pixel. -/
def generateRays (ext : Externals) (cam : Camera) (iter traceDepth : ℕ) :
    List PathSegment :=
  (List.range (pixelcount cam)).map (generateOne ext cam iter traceDepth)

/-- Mutable locals of the intersection loops: the (possibly stale)
`t`/`tmp_intersect`/`tmp_normal` of the last executed test, the running
minimum `t_min`, the hit index (`-1` = none, as in the source), and the
recorded `intersect_point`/`normal` of the current best hit. -/
structure IsectAcc where
  tPrev : ℚ
  tmpP : Vec3
  tmpN : Vec3
  t_min : ℚ
  hit : ℤ
  point : Vec3
  normal : Vec3
deriving DecidableEq

/-- One iteration of the primitive loop inside the KD leaf case
(`pathtrace.cu` lines 194-212): dispatch on the geometry type — only
`CUBE`/`SPHERE`/`TRIANGLE` are tested, any other type leaves
`t`/`tmp_intersect`/`tmp_normal` stale — then keep a strictly smaller
positive `t`. -/
def kdLeafStep (ext : Externals) (geoms : List Geom) (ray : Ray)
    (acc : IsectAcc) (j : ℕ) : IsectAcc :=
  let geom := geoms.getD j default
  let res : ℚ × Vec3 × Vec3 :=
    match geom.type with
    | GeomType.CUBE => let r := ext.boxIT geom ray; (r.t, r.point, r.normal)
    | GeomType.SPHERE => let r := ext.sphereIT geom ray; (r.t, r.point, r.normal)
    | GeomType.TRIANGLE => let r := ext.triangleIT geom ray; (r.t, r.point, r.normal)
    | _ => (acc.tPrev, acc.tmpP, acc.tmpN)
  let acc' := { acc with tPrev := res.1, tmpP := res.2.1, tmpN := res.2.2 }
  if 0 < res.1 ∧ res.1 < acc.t_min then
    { acc' with t_min := res.1, hit := (j : ℤ), point := res.2.1, normal := res.2.2 }
  else acc'

/-- The KD leaf's primitive loop over
`geoms[node.primitivesOffset + i]`, `i < node.nPrimitives`. -/
def kdLeafFold (ext : Externals) (geoms : List Geom) (ray : Ray)
    (off cnt : ℕ) (acc : IsectAcc) : IsectAcc :=
  (List.range' off cnt).foldl (kdLeafStep ext geoms ray) acc

/-- Result of the KD traversal loop, instrumented with a `finished` flag
(`false` when the fuel ran out before the loop hit a `break`) and a
`pushOK` flag recording that every push `nodesToVisit[toVisitOffset++]`
happened with `toVisitOffset < 64`, the capacity of the stack array. -/
structure KDRunRes where
  acc : IsectAcc
  finished : Bool
  pushOK : Bool
deriving DecidableEq

/-- The iterative traversal loop of `computeIntersectionsKD`
(`pathtrace.cu` lines 186-225).  The explicit stack `nodesToVisit` is a
cons-list whose head is the top (`toVisitOffset` = its length); the C
`while (true)` is given explicit fuel, exhaustion being reported through
`finished := false`. -/
def kdLoopRun (ext : Externals) (geoms : List Geom) (ray : Ray)
    (kdtree : List LinearKDNode) :
    ℕ → ℕ → List ℕ → IsectAcc → Bool → KDRunRes
  | 0, _, _, acc, ok => ⟨acc, false, ok⟩
  | fuel + 1, cur, stack, acc, ok =>
    let node := kdtree.getD cur default
    let boundsT := ext.boundsIT node.bounds ray
    if boundsT ≠ -1 then
      if 0 < node.nPrimitives then
        let acc' := kdLeafFold ext geoms ray node.primitivesOffset node.nPrimitives acc
        match stack with
        | [] => ⟨acc', true, ok⟩
        | c :: rest => kdLoopRun ext geoms ray kdtree fuel c rest acc' ok
      else
        let ok' := ok && decide (stack.length < 64)
        kdLoopRun ext geoms ray kdtree fuel (cur + 1)
          (node.secondChildOffset :: stack) acc ok'
    else
      match stack with
      | [] => ⟨acc, true, ok⟩
      | c :: rest => kdLoopRun ext geoms ray kdtree fuel c rest acc ok

/-- Shared epilogue of both intersection kernels (`pathtrace.cu` lines
227-262 and 340-379): build the `ShadeableIntersection` record from the
loop accumulator.  A miss writes only `t = -1` on top of the memset-zero
record; a hit records `t_min`, the hit geometry's material id and normal,
computes UVs by a per-type mapping of the local-frame hit point, and, if
the material carries a normal map, replaces the normal by the mapped
tangent-space normal (note the source's row stride `n_m_height`). -/
def buildRecord (ext : Externals) (geoms : List Geom)
    (materials : List Material) (textures : List Vec3) (acc : IsectAcc) :
    ShadeableIntersection :=
  if acc.hit = -1 then { zeroSI with t := -1 }
  else
    let g := geoms.getD acc.hit.toNat default
    let material := materials.getD g.materialid default
    let base := { zeroSI with
      t := acc.t_min
      materialId := g.materialid
      surfaceNormal := acc.normal }
    let pt := ext.multiplyMV g.inverseTransform acc.point 1
    let uvs :=
      match g.type with
      | GeomType.SPHERE => ext.computeSphereUVs pt
      | GeomType.DIAMOND => ext.computeSphereUVs pt
      | GeomType.MANDELBULB => ext.computeSphereUVs pt
      | GeomType.CUBE => ext.computeCubeUVs pt
      | GeomType.TRIANGLE => ext.getTriangleUVs g pt
    let rec1 := { base with uvs := uvs }
    if material.normMapOffset > -1 then
      let tb := ext.computeSphereTBN g pt acc.normal
      let pixel_x := toIntC (uvs.x * ((material.n_m_width : ℚ) - 1))
      let pixel_y := toIntC ((1 - uvs.y) * ((material.n_m_height : ℚ) - 1))
      let idx := pixel_y * material.n_m_height + pixel_x + material.normMapOffset
      let norm := (textures.getD idx.toNat default).smul 2 - Vec3.one
      { rec1 with surfaceNormal := ext.tangentToWorld tb.1 tb.2 acc.normal norm }
    else rec1

/-- One thread of `computeIntersectionsKD` (`pathtrace.cu` lines 164-264).
`t0` models the indeterminate initial value of the uninitialized local
`float t` (the other uninitialized temporaries are fixed at zero; only `t`
can flow into the hit decision).  The traversal fuel
`kdtree.length + 1` covers every terminating traversal, since a
well-formed flattened tree visits each node at most once. -/
def kdBody (ext : Externals) (geoms : List Geom) (materials : List Material)
    (textures : List Vec3) (kdtree : List LinearKDNode) (t0 : ℚ)
    (p : PathSegment) : ShadeableIntersection :=
  let acc0 : IsectAcc :=
    ⟨t0, Vec3.zero, Vec3.zero, FLT_MAX, -1, Vec3.zero, Vec3.zero⟩
  let r := kdLoopRun ext geoms p.ray kdtree (kdtree.length + 1) 0 [] acc0 true
  buildRecord ext geoms materials textures r.acc

/-- One iteration of the brute-force loop over all geometries
(`pathtrace.cu` lines 299-338): all five geometry types are dispatched,
`mandelbulbIntersectionTest` additionally writes the procedural `resColor`
out-parameter (carried alongside the accumulator). -/
def bruteStep (ext : Externals) (geoms : List Geom) (ray : Ray)
    (s : IsectAcc × Vec3) (j : ℕ) : IsectAcc × Vec3 :=
  let acc := s.1
  let geom := geoms.getD j default
  let res : ℚ × Vec3 × Vec3 × Vec3 :=
    match geom.type with
    | GeomType.CUBE => let r := ext.boxIT geom ray; (r.t, r.point, r.normal, s.2)
    | GeomType.SPHERE => let r := ext.sphereIT geom ray; (r.t, r.point, r.normal, s.2)
    | GeomType.DIAMOND => let r := ext.diamondIT geom ray; (r.t, r.point, r.normal, s.2)
    | GeomType.MANDELBULB =>
      let r := ext.mandelbulbIT geom ray; (r.1.t, r.1.point, r.1.normal, r.2)
    | GeomType.TRIANGLE => let r := ext.triangleIT geom ray; (r.t, r.point, r.normal, s.2)
  let acc' := { acc with tPrev := res.1, tmpP := res.2.1, tmpN := res.2.2.1 }
  if 0 < res.1 ∧ res.1 < acc.t_min then
    ({ acc' with t_min := res.1, hit := (j : ℤ), point := res.2.1, normal := res.2.2.1 },
      res.2.2.2)
  else (acc', res.2.2.2)

/-- One thread of brute-force `computeIntersections` (`pathtrace.cu` lines
270-381): linear scan of all primitives.  The local copy of the path
segment has its color multiplied by `glm::vec3(1.f, 0.f, 1.f)` on a hit
(line 351); as in the source, that local value is dead — it is bound here
and never used. -/
def bruteBody (ext : Externals) (geoms : List Geom) (materials : List Material)
    (textures : List Vec3) (p : PathSegment) : ShadeableIntersection :=
  let acc0 : IsectAcc :=
    ⟨0, Vec3.zero, Vec3.zero, FLT_MAX, -1, Vec3.zero, Vec3.zero⟩
  let s := (List.range geoms.length).foldl (bruteStep ext geoms p.ray) (acc0, Vec3.one)
  if s.1.hit = -1 then { zeroSI with t := -1 }
  else
    let _deadLocalColor := p.color * Vec3.mk 1 0 1
    buildRecord ext geoms materials textures s.1

/-- Modelled from the spec: `scatterRay` from `interactions.h` (not under
`src/`), per spec section 4.4(d): sample a new outgoing direction from a
cosine-weighted hemisphere about the surface normal using the path's
random engine, replace the ray, and multiply the throughput by the
BSDF-over-pdf ratio, which for the diffuse strategy reduces to the
material's albedo color (the cosine and pi factors cancel).  The bounce
counter decrement is performed by the caller (`pathtrace.cu` line 475). -/
def scatterRay (ext : Externals) (p : PathSegment) (isectPt normal : Vec3)
    (m : Material) (rng : ℕ) : PathSegment :=
  let wi := ext.randomHemisphere normal rng
  { p with ray := ⟨isectPt, wi⟩, color := p.color * m.color }

/-- The procedural texture color of the PROCTEXT branch (`pathtrace.cu`
lines 452-460): `SineWave` (lines 413-420) warps the UVs, and the warped
product feeds the external `palette` with the constants of lines 454-457. -/
def procTexColor (ext : Externals) (uvs : Vec2) : Vec3 :=
  let pi : ℚ := 3.14159
  let A : ℚ := 0.2
  let w : ℚ := 10 * pi
  let tphase : ℚ := 30 * pi / 180
  let f_uv : Vec2 := ⟨uvs.x, uvs.y + ext.sinf (w * uvs.x + tphase) * A⟩
  let a : Vec3 := ⟨0.5, 0.5, 0.5⟩
  let b : Vec3 := ⟨0.5, 0.5, 0.5⟩
  let c : Vec3 := ⟨2, 1, 0⟩
  let d : Vec3 := ⟨0.5, 0.2, 0.25⟩
  ext.palette (f_uv.x * f_uv.y) a b c d

/-- One thread of `shadeMaterials` (`pathtrace.cu` lines 423-483) at array
position `index`.  Faithful to the source: the random engine is seeded
with the array position `index`, not the path's `pixelIndex`; and the
texture-load-error branch (`textureOffset == -2`, lines 446-450) is not
terminal — control falls through to `scatterRay` and the counter
decrement of lines 474-475. -/
def shadeOne (ext : Externals) (iter depth : ℕ) (materials : List Material)
    (index : ℕ) (intersection : ShadeableIntersection) (p : PathSegment) :
    PathSegment :=
  if p.remainingBounces = 0 then p
  else if 0 < intersection.t then
    let rng := makeSeededRandomEngine ext iter index depth
    let material := materials.getD intersection.materialId default
    let materialColor := material.color
    if 0 < material.emittance then
      { p with color := p.color * (materialColor.smul material.emittance)
               remainingBounces := 0 }
    else
      let isectPt := ext.getPointOnRay p.ray intersection.t
      let p1 :=
        if material.textureOffset = -2 then
          { p with color := ⟨1, 0, 1⟩, remainingBounces := 0 }
        else p
      let p2 :=
        if material.textureOffset > -1 then
          { p1 with color := p1.color * procTexColor ext intersection.uvs }
        else p1
      let p3 := scatterRay ext p2 isectPt intersection.surfaceNormal material rng
      { p3 with remainingBounces := p3.remainingBounces - 1 }
  else
    { p with color := Vec3.zero, remainingBounces := 0 }

/-- `rayDeath` (`pathtrace.cu` lines 497-503): the partition predicate
keeping paths whose counter is still positive. -/
def rayDeath (p : PathSegment) : Bool := decide (0 < p.remainingBounces)

/-- Modelled from the spec: `thrust::partition` (`pathtrace.cu` line 649;
thrust is not part of this repository).  Spec section 4.5: partition the
array in place so that the paths satisfying the predicate occupy a
contiguous prefix, preserving each element's full state. -/
def thrustPartition {α : Type} (p : α → Bool) (l : List α) : List α :=
  l.filter p ++ l.filter (fun a => !(p a))

/-- `materialCmp` (`pathtrace.cu` lines 505-511): strict comparison of
intersection material ids. -/
def materialCmp (a b : ShadeableIntersection) : Bool :=
  decide (a.materialId < b.materialId)

/-- Stable insertion into a key-sorted list of (intersection, path) pairs:
the new element goes after every strictly smaller key and before the
first key that is not smaller, so pairs with equal keys keep their
original relative order. -/
def insertByMat (x : ShadeableIntersection × PathSegment) :
    List (ShadeableIntersection × PathSegment) →
      List (ShadeableIntersection × PathSegment)
  | [] => [x]
  | y :: ys => if materialCmp y.1 x.1 then y :: insertByMat x ys else x :: y :: ys

/-- Modelled from the spec: `thrust::sort_by_key` on the first `num_paths`
intersection records with the path segments as values (`pathtrace.cu`
lines 633-634; thrust is not part of this repository).  Spec section 4.3:
a joint reorder of both arrays by ascending material identifier with a
stable key comparator; realized as a stable insertion sort keyed by the
source's `materialCmp`. -/
def sortPairsByMat :
    List (ShadeableIntersection × PathSegment) →
      List (ShadeableIntersection × PathSegment)
  | [] => []
  | x :: xs => insertByMat x (sortPairsByMat xs)

/-- `finalGather` (`pathtrace.cu` lines 486-495): every path of the full
per-pixel array adds its throughput into the image slot named by its
stored pixel index. -/
def finalGather (image : List Vec3) (paths : List PathSegment) : List Vec3 :=
  paths.foldl
    (fun img p => img.set p.pixelIndex (img.getD p.pixelIndex default + p.color))
    image

/-- The scene-mirror data the driver reads (spec sections 2 and 6): the
sorted geometry list, materials, flattened texture texels, flattened
acceleration nodes, camera and bounce budget. -/
structure SceneM where
  geoms : List Geom
  materials : List Material
  textures : List Vec3
  kdtree : List LinearKDNode
  cam : Camera
  traceDepth : ℕ

/-- One `computeIntersectionsKD` launch over the first `num_paths` paths
(ACCELSTRUCT configuration), on top of the memset-cleared record array:
records beyond the active prefix stay all-zero. -/
def intersectStageKD (ext : Externals) (scene : SceneM) (t0 : ℚ)
    (num_paths : ℕ) (paths : List PathSegment) : List ShadeableIntersection :=
  (List.range (pixelcount scene.cam)).map fun i =>
    if i < num_paths then
      kdBody ext scene.geoms scene.materials scene.textures scene.kdtree t0
        (paths.getD i default)
    else zeroSI

/-- One `shadeMaterials` launch over the first `num_paths` paths. -/
def shadeStage (ext : Externals) (iter depth : ℕ) (materials : List Material)
    (num_paths : ℕ) (intersections : List ShadeableIntersection)
    (paths : List PathSegment) : List PathSegment :=
  (List.range paths.length).map fun i =>
    if i < num_paths then
      shadeOne ext iter depth materials i (intersections.getD i default)
        (paths.getD i default)
    else paths.getD i default

/-- The optional MATSORT stage (`pathtrace.cu` lines 632-635): jointly
sort the first `num_paths` (intersection, path) pairs by material id;
the rest of both arrays is untouched. -/
def sortStage (num_paths : ℕ) (intersections : List ShadeableIntersection)
    (paths : List PathSegment) :
    List ShadeableIntersection × List PathSegment :=
  let pref := sortPairsByMat
    ((intersections.take num_paths).zip (paths.take num_paths))
  (pref.map Prod.fst ++ intersections.drop num_paths,
    pref.map Prod.snd ++ paths.drop num_paths)

/-- The STREAMCOMP compaction step (`pathtrace.cu` lines 648-652):
`thrust::partition` over the active prefix; the new active count is the
size of the surviving prefix. -/
def compactStage (num_paths : ℕ) (paths : List PathSegment) :
    List PathSegment × ℕ :=
  (thrustPartition rayDeath (paths.take num_paths) ++ paths.drop num_paths,
    ((paths.take num_paths).filter rayDeath).length)

/-- The driver's bounce loop (`pathtrace.cu` lines 582-662) in its
compiled configuration (ACCELSTRUCT + STREAMCOMP), with the MATSORT stage
controlled by `matsort`.  Each round: clear and recompute intersections,
optionally sort by material, shade, increment `depth`, compact, and stop
when no path survives or the bounce budget is reached.  Fuel dominates the
trip count (`depth` reaches `traceDepth` after at most `traceDepth`
rounds); the final full path array is returned for the gather. -/
def ptLoop (ext : Externals) (scene : SceneM) (matsort : Bool) (iter : ℕ)
    (t0 : ℚ) : ℕ → ℕ → ℕ → List PathSegment → List PathSegment
  | 0, _, _, paths => paths
  | fuel + 1, depth, num_paths, paths =>
    let isects := intersectStageKD ext scene t0 num_paths paths
    let sorted :=
      if matsort then sortStage num_paths isects paths else (isects, paths)
    let paths' := shadeStage ext iter depth scene.materials num_paths
      sorted.1 sorted.2
    let depth' := depth + 1
    let comp := compactStage num_paths paths'
    if comp.2 = 0 ∨ depth' = scene.traceDepth then comp.1
    else ptLoop ext scene matsort iter t0 fuel depth' comp.2 comp.1

/-- One full `pathtrace` iteration (`pathtrace.cu` lines 517-679) acting
on the accumulated image: generate camera rays, run the bounce loop, and
gather every path's final throughput into the image by pixel index. -/
def pathtraceIter (ext : Externals) (scene : SceneM) (matsort : Bool)
    (iter : ℕ) (t0 : ℚ) (image : List Vec3) : List Vec3 :=
  let paths := generateRays ext scene.cam iter scene.traceDepth
  let finalPaths := ptLoop ext scene matsort iter t0 (scene.traceDepth + 1) 0
    (pixelcount scene.cam) paths
  finalGather image finalPaths

def Vec3.dot (a b : Vec3) : ℚ := a.x * b.x + a.y * b.y + a.z * b.z

/-- `BxDF_Diffuse` (`pathtrace.cu` lines 398-403), parametric over the
external constant `invPi` (`InvPi` from `utilities.h`, the float nearest
1/pi) and the external hemisphere sampler: returns the BSDF value
`material.color * InvPi * cosTheta`, the sampled direction `wi`, and the
output pdf `cosTheta * InvPi`. -/
def BxDF_Diffuse (ext : Externals) (invPi : ℚ) (material : Material)
    (normal _wo : Vec3) (rng : ℕ) : Vec3 × Vec3 × ℚ :=
  let wi := ext.randomHemisphere normal rng
  let cosTheta := |Vec3.dot normal wi|
  let pdf := cosTheta * invPi
  (Vec3.smul cosTheta (Vec3.smul invPi material.color), wi, pdf)

/-- The two device buffers the intersection kernels can reach: the path
segments and the intersection records. -/
structure TraceBufs where
  paths : List PathSegment
  intersections : List ShadeableIntersection
deriving DecidableEq

/-- The brute-force `computeIntersections` launch (`pathtrace.cu` lines
270-381) as a transformer of the two buffers: one thread per index below
`num_paths`, each writing only its own intersection record (the source
contains no store to `pathSegments`). -/
def computeIntersectionsStage (ext : Externals) (geoms : List Geom)
    (materials : List Material) (textures : List Vec3) (num_paths : ℕ)
    (b : TraceBufs) : TraceBufs :=
  { b with
    intersections := (List.range b.intersections.length).map fun i =>
      if i < num_paths then
        bruteBody ext geoms materials textures (b.paths.getD i default)
      else b.intersections.getD i default }

/-- Abstract pre-flattening acceleration tree (spec sections 3 and 4.2):
an interior node with two children, or a leaf owning the primitive range
`[off, off + cnt)`.  `flattenAt` below produces exactly the
`LinearKDNode` layout that `computeIntersectionsKD` traverses. -/
inductive KDT where
  | leaf (b : Bounds) (off cnt : ℕ)
  | node (b : Bounds) (l r : KDT)
deriving DecidableEq

/-- Number of flattened nodes of the tree. -/
def KDT.size : KDT → ℕ
  | .leaf _ _ _ => 1
  | .node _ l r => 1 + l.size + r.size

/-- Depth of the tree, counting nodes along a root-to-leaf path. -/
def KDT.depth : KDT → ℕ
  | .leaf _ _ _ => 1
  | .node _ l r => 1 + max l.depth r.depth

/-- Every leaf owns at least one primitive (a zero-count leaf would be
indistinguishable from an interior node in the flattened layout, whose
leaf test is `nPrimitives > 0`). -/
def KDT.leavesPos : KDT → Bool
  | .leaf _ _ cnt => decide (0 < cnt)
  | .node _ l r => l.leavesPos && r.leavesPos

/-- The primitive indices owned by the tree's leaves, in traversal order. -/
def KDT.covered : KDT → List ℕ
  | .leaf _ off cnt => List.range' off cnt
  | .node _ l r => l.covered ++ r.covered

/-- Flattening at array position `i` (spec section 3: first child
implicitly adjacent, explicit offset to the second child): the interior
node is followed by the whole left subtree, then the right subtree at
offset `i + 1 + l.size`. -/
def flattenAt : KDT → ℕ → List LinearKDNode
  | .leaf b off cnt, _ => [⟨b, off, 0, cnt⟩]
  | .node b l r, i =>
    ⟨b, 0, i + 1 + l.size, 0⟩ ::
      (flattenAt l (i + 1) ++ flattenAt r (i + 1 + l.size))

/-- The brute-force kernel's parametric hit distance for primitive `j`:
the type-dispatched intersection test of `pathtrace.cu` lines 299-324. -/
def tOf (ext : Externals) (geoms : List Geom) (ray : Ray) (j : ℕ) : ℚ :=
  let g := geoms.getD j default
  match g.type with
  | GeomType.CUBE => (ext.boxIT g ray).t
  | GeomType.SPHERE => (ext.sphereIT g ray).t
  | GeomType.TRIANGLE => (ext.triangleIT g ray).t
  | GeomType.DIAMOND => (ext.diamondIT g ray).t
  | GeomType.MANDELBULB => (ext.mandelbulbIT g ray).1.t

/-- Abstract nearest-hit scan: the `(t_min, hit_geom_index)` projection of
both kernels' strict-improvement update. -/
def minScanStep (ext : Externals) (geoms : List Geom) (ray : Ray)
    (s : ℚ × ℤ) (j : ℕ) : ℚ × ℤ :=
  if 0 < tOf ext geoms ray j ∧ tOf ext geoms ray j < s.1
  then (tOf ext geoms ray j, (j : ℤ)) else s

def minScan (ext : Externals) (geoms : List Geom) (ray : Ray)
    (L : List ℕ) (s : ℚ × ℤ) : ℚ × ℤ :=
  L.foldl (minScanStep ext geoms ray) s

/-- Denotation of the traversal: fold the leaf loops over the tree in
depth-first (left before right) order, skipping subtrees whose bounds the
ray misses — the order in which the explicit-stack loop visits them. -/
def processTree (ext : Externals) (geoms : List Geom) (ray : Ray) :
    KDT → IsectAcc → IsectAcc
  | .leaf b off cnt, acc =>
    if ext.boundsIT b ray ≠ -1 then kdLeafFold ext geoms ray off cnt acc else acc
  | .node b l r, acc =>
    if ext.boundsIT b ray ≠ -1 then
      processTree ext geoms ray r (processTree ext geoms ray l acc)
    else acc

/-- The primitive indices the traversal actually tests, in test order. -/
def KDT.processed (ext : Externals) (ray : Ray) : KDT → List ℕ
  | .leaf b off cnt =>
    if ext.boundsIT b ray ≠ -1 then List.range' off cnt else []
  | .node b l r =>
    if ext.boundsIT b ray ≠ -1 then
      (l.processed ext ray) ++ (r.processed ext ray)
    else []

/-- Number of loop iterations (node visits) the traversal spends on the
subtree: a missed or leaf node costs one visit, an entered interior node
costs one plus both children. -/
def KDT.visits (ext : Externals) (ray : Ray) : KDT → ℕ
  | .leaf _ _ _ => 1
  | .node b l r =>
    if ext.boundsIT b ray ≠ -1 then 1 + l.visits ext ray + r.visits ext ray
    else 1

/-- All stack pushes performed while traversing the subtree, starting
from a stack of length `k`, land below the 64-entry capacity. -/
def KDT.pushes (ext : Externals) (ray : Ray) : KDT → ℕ → Bool
  | .leaf _ _ _, _ => true
  | .node b l r, k =>
    if ext.boundsIT b ray ≠ -1 then
      decide (k < 64) && l.pushes ext ray (k + 1) && r.pushes ext ray k
    else true

/-- Conservative bounds (spec section 4.2): whenever a node's bounding
volume rejects the ray, no primitive under that node hits it.  This is
the semantic well-formedness the bounds-pruning traversal relies on. -/
def KDT.consOK (ext : Externals) (geoms : List Geom) (ray : Ray) : KDT → Bool
  | .leaf b off cnt =>
    if ext.boundsIT b ray = -1 then
      (List.range' off cnt).all fun j => decide (tOf ext geoms ray j ≤ 0)
    else true
  | .node b l r =>
    (if ext.boundsIT b ray = -1 then
      ((KDT.node b l r).covered).all fun j => decide (tOf ext geoms ray j ≤ 0)
    else true) && l.consOK ext geoms ray && r.consOK ext geoms ray

/-- The flattened array `flat` agrees with `seg` on positions
`i, i+1, ..., i + seg.length - 1`. -/
def segAt (flat : List LinearKDNode) (i : ℕ) (seg : List LinearKDNode) : Prop :=
  ∀ k, k < seg.length → flat.getD (i + k) default = seg.getD k default

/-- A concrete instantiation of the external primitives used by the
concrete evaluation theorems: identity hash, zero jitter, identity
normalize, spheres hit at `t = 2`, every bounding volume hit. -/
def extDemo : Externals where
  utilhash := id
  u01 := fun r => (0, r)
  normalize3 := id
  boxIT := fun _ _ => ⟨-1, Vec3.zero, Vec3.zero, true⟩
  sphereIT := fun _ _ => ⟨2, Vec3.zero, Vec3.zero, true⟩
  triangleIT := fun _ _ => ⟨-1, Vec3.zero, Vec3.zero, true⟩
  diamondIT := fun _ _ => ⟨-1, Vec3.zero, Vec3.zero, true⟩
  mandelbulbIT := fun _ _ => (⟨-1, Vec3.zero, Vec3.zero, true⟩, Vec3.one)
  boundsIT := fun _ _ => 1
  getPointOnRay := fun _ _ => Vec3.zero
  randomHemisphere := fun _ _ => Vec3.zero
  multiplyMV := fun _ v _ => v
  computeSphereUVs := fun _ => ⟨0, 0⟩
  computeCubeUVs := fun _ => ⟨0, 0⟩
  getTriangleUVs := fun _ _ => ⟨0, 0⟩
  computeSphereTBN := fun _ _ _ => (Vec3.zero, Vec3.zero)
  tangentToWorld := fun _ _ _ n => n
  sinf := fun _ => 0
  palette := fun _ _ _ _ _ => Vec3.one

/-- A non-emissive material whose texture reference carries the
texture-load-error sentinel `-2`, with gray albedo. -/
def matTexErr : Material := ⟨⟨1/2, 1/2, 1/2⟩, 0, -2, -1, 0, 0, 0, 0⟩

/-- A path two bounces from exhaustion, about to be shaded. -/
def pathTexErr : PathSegment := ⟨⟨Vec3.zero, Vec3.one⟩, Vec3.one, 0, 2⟩

/-- An intersection record hitting material 0 at `t = 1`. -/
def isectHit1 : ShadeableIntersection := ⟨1, 0, Vec3.zero, ⟨0, 0⟩⟩

/-- The path produced by the shader on the texture-load-error input:
reachable pipeline state fed to the compaction counterexample. -/
def pathDead : PathSegment := shadeOne extDemo 0 0 [matTexErr] 0 isectHit1 pathTexErr

/-- A 1-by-1 camera with trivial basis. -/
def cam1x1 : Camera := ⟨1, 1, Vec3.zero, ⟨0, 0, 1⟩, ⟨0, 1, 0⟩, ⟨1, 0, 0⟩, 1, 1⟩

/-- One sphere, one default material, a single-leaf tree, and a bounce
budget of zero. -/
def sceneZeroDepth : SceneM :=
  ⟨[⟨GeomType.SPHERE, 0, []⟩], [default], [],
    [⟨⟨Vec3.zero, Vec3.zero⟩, 0, 0, 1⟩], cam1x1, 0⟩

/-- An emissive white material with emittance 5 (spec section 8's
end-to-end scenario). -/
def matEmissive5 : Material := ⟨Vec3.one, 5, -1, -1, 0, 0, 0, 0⟩

/-- The emissive-sphere scene of spec section 8 at 1-by-1 resolution with
bounce budget 1. -/
def sceneEmissiveDemo : SceneM :=
  ⟨[⟨GeomType.SPHERE, 0, []⟩], [matEmissive5], [],
    [⟨⟨Vec3.zero, Vec3.zero⟩, 0, 0, 1⟩], cam1x1, 1⟩

/-- Intersection result hitting at distance `t` (normal and point at the
origin). -/
def hitAt (t : ℚ) : IsectRes := ⟨t, Vec3.zero, Vec3.zero, true⟩

/-- Externals for the material-sort scenario: the sphere test answers by
material id and by the ray direction's x component, and the hemisphere
sampler encodes the random-engine seed into the sampled direction, so the
second bounce of a path lands on the light only for the seed the shader
derives from array position 0. -/
def extSortDemo : Externals :=
  { extDemo with
    sphereIT := fun g r =>
      if g.materialid = 1 then
        (if r.direction.x = 1 then hitAt 2 else hitAt (-1))
      else if g.materialid = 2 then
        (if r.direction.x = 2 ^ 31 then hitAt 2 else hitAt (-1))
      else (if r.direction.x = 0 then hitAt 2 else hitAt (-1))
    randomHemisphere := fun _ rng => ⟨(rng : ℚ), 0, 0⟩ }

/-- A 2-by-1 camera with trivial basis and unit pixel lengths: the two
generated rays have direction x components 1 and 0. -/
def camSortDemo : Camera := ⟨2, 1, Vec3.zero, ⟨0, 0, 1⟩, ⟨0, 1, 0⟩, ⟨1, 0, 0⟩, 1, 1⟩

/-- Diffuse white material, no texture, no normal map. -/
def matDiffuse : Material := ⟨Vec3.one, 0, -1, -1, 0, 0, 0, 0⟩

/-- Emissive white material with emittance 1. -/
def matLight1 : Material := ⟨Vec3.one, 1, -1, -1, 0, 0, 0, 0⟩

/-- The material-sort scenario: pixel 0's first hit has material id 1 and
pixel 1's has material id 0, so the sort stage swaps the two paths; the
third sphere is the light reachable only from the direction sampled with
the seed of array position 0; bounce budget 2. -/
def sceneSortDemo : SceneM :=
  ⟨[⟨GeomType.SPHERE, 1, []⟩, ⟨GeomType.SPHERE, 0, []⟩, ⟨GeomType.SPHERE, 2, []⟩],
    [matDiffuse, matDiffuse, matLight1], [],
    [⟨⟨Vec3.zero, Vec3.zero⟩, 0, 0, 3⟩], camSortDemo, 2⟩

/-- Externals for the KD-vs-brute scenario: spheres hit at `t = 5`,
diamonds at `t = 2`. -/
def extKDDemo : Externals :=
  { extDemo with
    sphereIT := fun _ _ => hitAt 5
    diamondIT := fun _ _ => hitAt 2 }

/-- A sphere (material 0) in front of a nearer diamond (material 1): the
diamond is the nearest hit, but the KD leaf loop does not dispatch the
DIAMOND type. -/
def geomsKDDemo : List Geom :=
  [⟨GeomType.SPHERE, 0, []⟩, ⟨GeomType.DIAMOND, 1, []⟩]

/-- A single-leaf flattened tree owning both primitives. -/
def treeKDDemo : List LinearKDNode := [⟨⟨Vec3.zero, Vec3.zero⟩, 0, 0, 2⟩]

def matsKDDemo : List Material := [matDiffuse, matDiffuse]

attribute [local semireducible] Rat.mul Rat.add Rat.sub Rat.inv

theorem Vec3.mk_xyz (v : Vec3) : Vec3.mk v.x v.y v.z = v := rfl

/-- C3: the spec requires the remaining-bounce counter to be non-increasing,
never negative after any shading step, and exactly zero on termination, in
particular on the texture-load-error branch.  The code violates this: on
that branch `shadeMaterials` sets the counter to 0 (line 449) but control
falls through to the decrement of line 475, leaving the counter at -1 for
a path that entered the shader with two bounces left. -/
theorem shadeMaterials_texError_negative_counter :
    (shadeOne extDemo 0 0 [matTexErr] 0 isectHit1 pathTexErr).remainingBounces = -1 := by
  decide

/-- C6: the claim says a texture-load-error path gets throughput exactly
magenta (1,0,1) and is terminated with no further shading.  The code sets
the magenta sentinel (line 448) but then falls through to `scatterRay` and
the bounce decrement (lines 474-475): with gray albedo (1/2,1/2,1/2) the
final color is (1/2,0,1/2), not the sentinel, and the counter ends at -1,
not 0. -/
theorem shadeMaterials_texError_rescattered :
    (shadeOne extDemo 0 0 [matTexErr] 0 isectHit1 pathTexErr).color = ⟨1/2, 0, 1/2⟩ ∧
    (shadeOne extDemo 0 0 [matTexErr] 0 isectHit1 pathTexErr).color ≠ ⟨1, 0, 1⟩ ∧
    (shadeOne extDemo 0 0 [matTexErr] 0 isectHit1 pathTexErr).remainingBounces ≠ 0 := by
  decide

/-- C5 (counterexample): it is not true that every path removed by the
compaction step had counter exactly 0: the path produced by the shader's
texture-load-error branch is removed with counter -1. -/
theorem compaction_removed_path_counter_not_zero :
    ¬ ∀ p ∈ (compactStage 1 [pathDead]).1.drop (compactStage 1 [pathDead]).2,
        p.remainingBounces = 0 := by
  decide

/-- C5 (amended): after compaction the active count is at most the count
before; the surviving prefix is exactly the paths with counter > 0, in
order and with full state preserved; the removed tail is exactly the
paths with counter not greater than 0 (not necessarily exactly 0) followed
by the untouched region beyond the old active count; and the whole array
is a permutation of the old one. -/
theorem compaction_partition_spec (num : ℕ) (paths : List PathSegment) :
    (compactStage num paths).2 ≤ num ∧
    (compactStage num paths).1.take (compactStage num paths).2 =
      (paths.take num).filter rayDeath ∧
    (∀ p ∈ (compactStage num paths).1.take (compactStage num paths).2,
      0 < p.remainingBounces) ∧
    (compactStage num paths).1.drop (compactStage num paths).2 =
      (paths.take num).filter (fun p => !(rayDeath p)) ++ paths.drop num ∧
    (∀ p ∈ (paths.take num).filter (fun p => !(rayDeath p)),
      p.remainingBounces ≤ 0) ∧
    (compactStage num paths).1.Perm paths := by
  have harr : (compactStage num paths).1 =
      (paths.take num).filter rayDeath ++
        ((paths.take num).filter (fun a => !(rayDeath a)) ++ paths.drop num) := by
    simp [compactStage, thrustPartition, List.append_assoc]
  have hcnt : (compactStage num paths).2 =
      ((paths.take num).filter rayDeath).length := rfl
  have htake : (compactStage num paths).1.take (compactStage num paths).2 =
      (paths.take num).filter rayDeath := by
    rw [harr, hcnt, List.take_left]
  refine ⟨?_, htake, ?_, ?_, ?_, ?_⟩
  · calc (compactStage num paths).2
        ≤ (paths.take num).length := hcnt ▸ List.length_filter_le _ _
      _ ≤ num := by simp [List.length_take]
  · intro p hp
    rw [htake] at hp
    exact of_decide_eq_true (List.mem_filter.mp hp).2
  · rw [harr, hcnt, List.drop_left]
  · intro p hp
    have := (List.mem_filter.mp hp).2
    simp only [rayDeath, Bool.not_eq_true', decide_eq_false_iff_not, not_lt] at this
    exact this
  · rw [harr, ← List.append_assoc]
    calc ((paths.take num).filter rayDeath ++
          (paths.take num).filter (fun a => !(rayDeath a))) ++ paths.drop num
        |>.Perm (paths.take num ++ paths.drop num) :=
          (List.filter_append_perm rayDeath (paths.take num)).append_right _
      _ = paths := List.take_append_drop num paths

/-- C2 (counterexample): with bounce budget 0 the iteration is not a
no-op on the accumulated image — on a 1-by-1 scene starting from the zero
image, the image changes. -/
theorem zero_depth_iteration_changes_image :
    pathtraceIter extDemo sceneZeroDepth false 0 0 [Vec3.zero] ≠ [Vec3.zero] := by
  decide

set_option maxRecDepth 100000 in
/-- C1: with the same scene, iteration and initial image, toggling the
material-sort stage changes pixel 0's accumulated contribution.  The
shader seeds its per-path engine with the post-sort array position
(`makeSeededRandomEngine(iter, index, depth)` at line 431, where `index`
is the thread index), not the path's pixel index, so reordering the
active array changes the sampled bounce directions and hence the result. -/
theorem matsort_toggle_changes_pixel0 :
    (pathtraceIter extSortDemo sceneSortDemo true 0 0 [Vec3.zero, Vec3.zero]).getD 0 default ≠
      (pathtraceIter extSortDemo sceneSortDemo false 0 0 [Vec3.zero, Vec3.zero]).getD 0 default := by
  decide

set_option maxRecDepth 40000 in
/-- C4 (counterexample): on a scene holding a sphere at `t = 5` (material
0) and a nearer diamond at `t = 2` (material 1), both owned by one leaf of
the flattened structure, the brute-force kernel reports the diamond
(`t = 2`, material 1) while the KD kernel, whose leaf loop dispatches only
CUBE/SPHERE/TRIANGLE, reports the sphere (`t = 5`, material 0). -/
theorem kd_brute_disagree_on_diamond :
    (kdBody extKDDemo geomsKDDemo matsKDDemo [] treeKDDemo 0 default).t ≠
      (bruteBody extKDDemo geomsKDDemo matsKDDemo [] default).t ∧
    (kdBody extKDDemo geomsKDDemo matsKDDemo [] treeKDDemo 0 default).materialId ≠
      (bruteBody extKDDemo geomsKDDemo matsKDDemo [] default).materialId := by
  decide

theorem bruteBody_color_irrel (ext : Externals) (geoms : List Geom)
    (materials : List Material) (textures : List Vec3) (p : PathSegment)
    (c : Vec3) :
    bruteBody ext geoms materials textures { p with color := c } =
      bruteBody ext geoms materials textures p := rfl

/-- C10: the brute-force intersection kernel writes only the
intersection-record array: the path-segment buffer is returned unchanged,
and recoloring every path arbitrarily (in particular, discarding the
kernel-local procedural/magenta color products) does not change any
intersection record it writes. -/
theorem computeIntersections_writes_only_records (ext : Externals)
    (geoms : List Geom) (materials : List Material) (textures : List Vec3)
    (num_paths : ℕ) (b : TraceBufs) (recolor : PathSegment → Vec3) :
    (computeIntersectionsStage ext geoms materials textures num_paths b).paths
      = b.paths ∧
    (computeIntersectionsStage ext geoms materials textures num_paths
        { b with paths := b.paths.map fun p => { p with color := recolor p } }).intersections
      = (computeIntersectionsStage ext geoms materials textures num_paths b).intersections := by
  refine ⟨rfl, ?_⟩
  simp only [computeIntersectionsStage]
  apply List.map_congr_left
  intro i _
  by_cases h : i < num_paths
  · simp only [h, if_true]
    rcases hg : b.paths[i]? with _ | p
    · rw [List.getD_eq_getElem?_getD, List.getElem?_map, hg,
        List.getD_eq_getElem?_getD, hg]
      rfl
    · rw [List.getD_eq_getElem?_getD, List.getElem?_map, hg,
        List.getD_eq_getElem?_getD, hg]
      exact bruteBody_color_irrel ext geoms materials textures p (recolor p)
  · simp only [h, if_false]

/-- C9: the diffuse BSDF sampler's value divided by the pdf it outputs is
exactly the material's albedo, componentwise, whenever the sampled cosine
term is nonzero (and the external constant `InvPi` is nonzero, as the
float nearest 1/pi is): the cosine and the `InvPi` factors cancel. -/
theorem BxDF_Diffuse_ratio_albedo (ext : Externals) (invPi : ℚ)
    (material : Material) (normal wo : Vec3) (rng : ℕ)
    (hcos : |Vec3.dot normal (ext.randomHemisphere normal rng)| ≠ 0)
    (hpi : invPi ≠ 0) :
    (BxDF_Diffuse ext invPi material normal wo rng).1.x /
        (BxDF_Diffuse ext invPi material normal wo rng).2.2 = material.color.x ∧
    (BxDF_Diffuse ext invPi material normal wo rng).1.y /
        (BxDF_Diffuse ext invPi material normal wo rng).2.2 = material.color.y ∧
    (BxDF_Diffuse ext invPi material normal wo rng).1.z /
        (BxDF_Diffuse ext invPi material normal wo rng).2.2 = material.color.z := by
  simp only [BxDF_Diffuse, Vec3.smul]
  refine ⟨?_, ?_, ?_⟩ <;>
    · rw [div_eq_iff (mul_ne_zero hcos hpi)]
      ring

/-- Witness for C9 at a concrete input: sampler returning (1,0,0), normal
(1,0,0), `invPi := 7`, gray material: the cosine is 1 and the ratio
equals the albedo. -/
theorem BxDF_Diffuse_ratio_albedo_witness :
    |Vec3.dot ⟨1, 0, 0⟩
        (({ extDemo with randomHemisphere := fun _ _ => ⟨1, 0, 0⟩ } :
          Externals).randomHemisphere ⟨1, 0, 0⟩ 0)| ≠ 0 ∧
    (7 : ℚ) ≠ 0 ∧
    (BxDF_Diffuse { extDemo with randomHemisphere := fun _ _ => ⟨1, 0, 0⟩ } 7
          matTexErr ⟨1, 0, 0⟩ Vec3.zero 0).1.x /
        (BxDF_Diffuse { extDemo with randomHemisphere := fun _ _ => ⟨1, 0, 0⟩ } 7
          matTexErr ⟨1, 0, 0⟩ Vec3.zero 0).2.2 = matTexErr.color.x :=
  ⟨by norm_num [Vec3.dot], by norm_num,
    (BxDF_Diffuse_ratio_albedo _ 7 matTexErr ⟨1, 0, 0⟩ Vec3.zero 0
      (by norm_num [Vec3.dot]) (by norm_num)).1⟩

theorem shadeOne_exhausted (ext : Externals) (iter depth : ℕ)
    (materials : List Material) (index : ℕ)
    (intersection : ShadeableIntersection) (p : PathSegment)
    (hrb : p.remainingBounces = 0) :
    shadeOne ext iter depth materials index intersection p = p := by
  simp [shadeOne, hrb]

theorem generateRays_length (ext : Externals) (cam : Camera)
    (iter traceDepth : ℕ) :
    (generateRays ext cam iter traceDepth).length = pixelcount cam := by
  simp [generateRays]

/-- Accumulation lemma for `finalGather`: folding a block of paths whose
pixel indices are exactly `a, a+1, ..., a+n-1` and whose colors are all
`c` adds `c` to exactly those image slots. -/
theorem finalGather_block (gen : ℕ → PathSegment) (c : Vec3) :
    ∀ (n a : ℕ) (img : List Vec3) (p : ℕ),
      (∀ i, a ≤ i → i < a + n → (gen i).pixelIndex = i ∧ (gen i).color = c) →
      (finalGather img ((List.range' a n).map gen))[p]? =
        if a ≤ p ∧ p < a + n then img[p]?.map (fun v => v + c) else img[p]? := by
  intro n
  induction n with
  | zero =>
    intro a img p _
    rw [if_neg (by omega)]
    rfl
  | succ m ih =>
    intro a img p hblock
    rw [List.range'_succ, List.map_cons]
    show (finalGather (img.set (gen a).pixelIndex
      (img.getD (gen a).pixelIndex default + (gen a).color))
        ((List.range' (a + 1) m).map gen))[p]? = _
    rw [(hblock a (le_refl a) (by omega)).1, (hblock a (le_refl a) (by omega)).2,
      ih (a + 1) _ p (fun i h1 h2 => hblock i (by omega) (by omega))]
    by_cases hpa : p = a
    · subst hpa
      rw [if_neg (by omega), if_pos (by omega), List.getElem?_set, if_pos rfl]
      by_cases hlen : p < img.length
      · rw [if_pos hlen, List.getD_eq_getElem?_getD,
          List.getElem?_eq_getElem hlen]
        rfl
      · rw [if_neg hlen, List.getElem?_eq_none (by omega)]
        rfl
    · rw [List.getElem?_set_ne (fun h => hpa h.symm)]
      by_cases hc : a ≤ p ∧ p < a + (m + 1)
      · rw [if_pos hc, if_pos (by omega)]
      · rw [if_neg hc, if_neg (by omega)]

theorem shadeStage_exhausted (ext : Externals) (iter depth : ℕ)
    (materials : List Material) (num_paths : ℕ)
    (intersections : List ShadeableIntersection) (paths : List PathSegment)
    (hrb : ∀ q ∈ paths, q.remainingBounces = 0) :
    shadeStage ext iter depth materials num_paths intersections paths = paths := by
  apply List.ext_getElem
  · simp [shadeStage]
  · intro i h1 h2
    simp only [shadeStage, List.getElem_map, List.getElem_range]
    have hlen : i < paths.length := by simpa [shadeStage] using h2
    have hgd : paths.getD i default = paths[i] := by
      rw [List.getD_eq_getElem?_getD, List.getElem?_eq_getElem hlen]
      rfl
    by_cases h : i < num_paths
    · rw [if_pos h, hgd,
        shadeOne_exhausted _ _ _ _ _ _ _ (hrb _ (List.getElem_mem hlen))]
    · rw [if_neg h, hgd]

theorem compactStage_all_dead (num : ℕ) (paths : List PathSegment)
    (hdead : ∀ q ∈ paths, rayDeath q = false) :
    compactStage num paths = (paths, 0) := by
  have hfil : (paths.take num).filter rayDeath = [] := by
    rw [List.filter_eq_nil_iff]
    intro a ha
    simp [hdead a (List.mem_of_mem_take ha)]
  have hfil2 : (paths.take num).filter (fun a => !(rayDeath a)) = paths.take num := by
    rw [List.filter_eq_self]
    intro a ha
    simp [hdead a (List.mem_of_mem_take ha)]
  simp [compactStage, thrustPartition, hfil, hfil2]

/-- C2 (amended): with bounce budget 0, one full pathtrace iteration adds
exactly white (1,1,1) to every pixel of the accumulated image: the
generator initializes every path with white throughput and an exhausted
counter, the shader skips exhausted paths, and the gather still deposits
each path's (unmodified) white throughput at its pixel. -/
theorem zero_depth_iteration_adds_white (ext : Externals) (scene : SceneM)
    (iter : ℕ) (t0 : ℚ) (image : List Vec3) (h0 : scene.traceDepth = 0)
    (p : ℕ) (hp : p < pixelcount scene.cam) :
    (pathtraceIter ext scene false iter t0 image)[p]? =
      image[p]?.map (fun v => v + Vec3.one) := by
  have hrb : ∀ q ∈ generateRays ext scene.cam iter 0, q.remainingBounces = 0 := by
    intro q hq
    obtain ⟨i, _, rfl⟩ := List.mem_map.mp hq
    simp [generateOne]
  have hdead : ∀ q ∈ generateRays ext scene.cam iter 0, rayDeath q = false := by
    intro q hq
    simp [rayDeath, hrb q hq]
  have e1 : pathtraceIter ext scene false iter t0 image =
      finalGather image
        (ptLoop ext scene false iter t0 (scene.traceDepth + 1) 0
          (pixelcount scene.cam)
          (generateRays ext scene.cam iter scene.traceDepth)) := rfl
  rw [e1, h0]
  have e2 : ptLoop ext scene false iter t0 (0 + 1) 0 (pixelcount scene.cam)
      (generateRays ext scene.cam iter 0) =
      (if (compactStage (pixelcount scene.cam)
            (shadeStage ext iter 0 scene.materials (pixelcount scene.cam)
              (intersectStageKD ext scene t0 (pixelcount scene.cam)
                (generateRays ext scene.cam iter 0))
              (generateRays ext scene.cam iter 0))).2 = 0 ∨
          0 + 1 = scene.traceDepth then
        (compactStage (pixelcount scene.cam)
            (shadeStage ext iter 0 scene.materials (pixelcount scene.cam)
              (intersectStageKD ext scene t0 (pixelcount scene.cam)
                (generateRays ext scene.cam iter 0))
              (generateRays ext scene.cam iter 0))).1
      else
        ptLoop ext scene false iter t0 0 (0 + 1)
          (compactStage (pixelcount scene.cam)
            (shadeStage ext iter 0 scene.materials (pixelcount scene.cam)
              (intersectStageKD ext scene t0 (pixelcount scene.cam)
                (generateRays ext scene.cam iter 0))
              (generateRays ext scene.cam iter 0))).2
          (compactStage (pixelcount scene.cam)
            (shadeStage ext iter 0 scene.materials (pixelcount scene.cam)
              (intersectStageKD ext scene t0 (pixelcount scene.cam)
                (generateRays ext scene.cam iter 0))
              (generateRays ext scene.cam iter 0))).1) := rfl
  rw [e2, shadeStage_exhausted _ _ _ _ _ _ _ hrb,
    compactStage_all_dead _ _ hdead]
  simp only [if_pos (Or.inl rfl)]
  simp only [true_or, if_true]
  have hsplit : generateRays ext scene.cam iter 0 =
      (List.range' 0 (pixelcount scene.cam)).map
        (generateOne ext scene.cam iter 0) := by
    rw [generateRays, List.range_eq_range']
  rw [hsplit, finalGather_block _ Vec3.one _ _ _ _ (fun i _ _ => ⟨rfl, rfl⟩),
    if_pos ⟨Nat.zero_le p, by omega⟩]

/-- Witness for C2's amended theorem on the concrete zero-budget scene:
pixel 0 of the zero image becomes (1,1,1). -/
theorem zero_depth_iteration_adds_white_witness :
    sceneZeroDepth.traceDepth = 0 ∧ 0 < pixelcount sceneZeroDepth.cam ∧
    (pathtraceIter extDemo sceneZeroDepth false 0 0 [Vec3.zero])[0]? =
      [Vec3.zero][0]?.map (fun v => v + Vec3.one) :=
  ⟨rfl, by decide,
    zero_depth_iteration_adds_white extDemo sceneZeroDepth 0 0 [Vec3.zero] rfl 0
      (by decide)⟩

theorem Vec3.add_def (a b : Vec3) : a + b = ⟨a.x + b.x, a.y + b.y, a.z + b.z⟩ := rfl

theorem Vec3.mul_def (a b : Vec3) : a * b = ⟨a.x * b.x, a.y * b.y, a.z * b.z⟩ := rfl

/-- C7: in a scene whose only geometry is a white emissive sphere with
emittance 5 that every camera ray hits (single-leaf acceleration
structure, bounds always hit), one iteration from the zero image
accumulates exactly (5,5,5) at every pixel, for any bounce budget of at
least 1: the first hit takes the shader's emissive branch
(`throughput *= color * emittance`, counter := 0), compaction empties the
active set, and the gather deposits (5,5,5) per pixel. -/
theorem emissive_sphere_pixel_radiance (ext : Externals) (scene : SceneM)
    (iter : ℕ) (t0 : ℚ) (g : Geom) (m : Material) (b : Bounds)
    (hg : scene.geoms = [g]) (hgt : g.type = GeomType.SPHERE)
    (hgm : g.materialid = 0)
    (hm : scene.materials = [m]) (hmc : m.color = Vec3.one) (hme : m.emittance = 5)
    (htree : scene.kdtree = [⟨b, 0, 0, 1⟩])
    (hbounds : ∀ r : Ray, ext.boundsIT b r ≠ -1)
    (hhit : ∀ r : Ray, 0 < (ext.sphereIT g r).t ∧ (ext.sphereIT g r).t < FLT_MAX)
    (htd : 1 ≤ scene.traceDepth)
    (p : ℕ) (hp : p < pixelcount scene.cam) :
    (pathtraceIter ext scene false iter t0
        (List.replicate (pixelcount scene.cam) Vec3.zero))[p]? =
      some ⟨5, 5, 5⟩ := by
  have hkd : ∀ q : PathSegment,
      (kdBody ext scene.geoms scene.materials scene.textures scene.kdtree t0 q).t
          = (ext.sphereIT g q.ray).t ∧
      (kdBody ext scene.geoms scene.materials scene.textures scene.kdtree t0 q).materialId
          = 0 := by
    intro q
    have h1 := (hhit q.ray).1
    have h2 := (hhit q.ray).2
    have h3 := hbounds q.ray
    by_cases hnm : m.normMapOffset > -1 <;>
      constructor <;>
        simp [kdBody, kdLoopRun, kdLeafFold, kdLeafStep, buildRecord, htree, hg, hgt, hgm, hm,
          List.range', h1, h2, h3, hnm]
  have hGlen : (generateRays ext scene.cam iter scene.traceDepth).length =
      pixelcount scene.cam := generateRays_length ext scene.cam iter scene.traceDepth
  have hGget : ∀ i, i < pixelcount scene.cam →
      (generateRays ext scene.cam iter scene.traceDepth).getD i default =
        generateOne ext scene.cam iter scene.traceDepth i := by
    intro i hi
    rw [generateRays, List.getD_eq_getElem?_getD, List.getElem?_map,
      List.getElem?_range hi]
    rfl
  have hisect : ∀ i, i < pixelcount scene.cam →
      (intersectStageKD ext scene t0 (pixelcount scene.cam)
          (generateRays ext scene.cam iter scene.traceDepth)).getD i default =
        kdBody ext scene.geoms scene.materials scene.textures scene.kdtree t0
          ((generateRays ext scene.cam iter scene.traceDepth).getD i default) := by
    intro i hi
    rw [intersectStageKD, List.getD_eq_getElem?_getD, List.getElem?_map,
      List.getElem?_range hi]
    simp [hi]
  have hrbne : ¬((scene.traceDepth : ℤ) = 0) := by omega
  have hshade : ∀ i, i < pixelcount scene.cam →
      shadeOne ext iter 0 scene.materials i
          ((intersectStageKD ext scene t0 (pixelcount scene.cam)
            (generateRays ext scene.cam iter scene.traceDepth)).getD i default)
          ((generateRays ext scene.cam iter scene.traceDepth).getD i default) =
        { (generateRays ext scene.cam iter scene.traceDepth).getD i default with
            color := ⟨5, 5, 5⟩, remainingBounces := 0 } := by
    intro i hi
    have h1 := (hkd ((generateRays ext scene.cam iter scene.traceDepth).getD i default)).1
    have h2 := (hkd ((generateRays ext scene.cam iter scene.traceDepth).getD i default)).2
    have hpos := (hhit ((generateRays ext scene.cam iter scene.traceDepth).getD i default).ray).1
    rw [← h1] at hpos
    rw [hisect i hi]
    simp only [shadeOne]
    rw [if_neg (by rw [hGget i hi]; exact hrbne), if_pos hpos, h2, hm]
    simp only [List.getD_cons_zero]
    rw [if_pos (by rw [hme]; norm_num)]
    have hcol : ((generateRays ext scene.cam iter scene.traceDepth).getD i default).color
        = Vec3.one := by rw [hGget i hi]; rfl
    rw [hcol, hme, hmc]
    norm_num [Vec3.mul_def, Vec3.smul, Vec3.one]
  have hSmap : shadeStage ext iter 0 scene.materials (pixelcount scene.cam)
      (intersectStageKD ext scene t0 (pixelcount scene.cam)
        (generateRays ext scene.cam iter scene.traceDepth))
      (generateRays ext scene.cam iter scene.traceDepth) =
      (List.range' 0 (pixelcount scene.cam)).map (fun i =>
        if i < pixelcount scene.cam then
          shadeOne ext iter 0 scene.materials i
            ((intersectStageKD ext scene t0 (pixelcount scene.cam)
              (generateRays ext scene.cam iter scene.traceDepth)).getD i default)
            ((generateRays ext scene.cam iter scene.traceDepth).getD i default)
        else (generateRays ext scene.cam iter scene.traceDepth).getD i default) := by
    rw [shadeStage, hGlen, List.range_eq_range']
  have hdead : ∀ q ∈ shadeStage ext iter 0 scene.materials (pixelcount scene.cam)
      (intersectStageKD ext scene t0 (pixelcount scene.cam)
        (generateRays ext scene.cam iter scene.traceDepth))
      (generateRays ext scene.cam iter scene.traceDepth), rayDeath q = false := by
    rw [hSmap]
    intro q hq
    obtain ⟨i, hmem, rfl⟩ := List.mem_map.mp hq
    have hi : i < pixelcount scene.cam := by
      have := List.mem_range'_1.mp hmem
      omega
    rw [if_pos hi, hshade i hi]
    rfl
  have e1 : pathtraceIter ext scene false iter t0
      (List.replicate (pixelcount scene.cam) Vec3.zero) =
      finalGather (List.replicate (pixelcount scene.cam) Vec3.zero)
        (ptLoop ext scene false iter t0 (scene.traceDepth + 1) 0
          (pixelcount scene.cam)
          (generateRays ext scene.cam iter scene.traceDepth)) := rfl
  rw [e1]
  have e2 : ptLoop ext scene false iter t0 (scene.traceDepth + 1) 0
      (pixelcount scene.cam) (generateRays ext scene.cam iter scene.traceDepth) =
      (if (compactStage (pixelcount scene.cam)
            (shadeStage ext iter 0 scene.materials (pixelcount scene.cam)
              (intersectStageKD ext scene t0 (pixelcount scene.cam)
                (generateRays ext scene.cam iter scene.traceDepth))
              (generateRays ext scene.cam iter scene.traceDepth))).2 = 0 ∨
          0 + 1 = scene.traceDepth then
        (compactStage (pixelcount scene.cam)
            (shadeStage ext iter 0 scene.materials (pixelcount scene.cam)
              (intersectStageKD ext scene t0 (pixelcount scene.cam)
                (generateRays ext scene.cam iter scene.traceDepth))
              (generateRays ext scene.cam iter scene.traceDepth))).1
      else
        ptLoop ext scene false iter t0 scene.traceDepth (0 + 1)
          (compactStage (pixelcount scene.cam)
            (shadeStage ext iter 0 scene.materials (pixelcount scene.cam)
              (intersectStageKD ext scene t0 (pixelcount scene.cam)
                (generateRays ext scene.cam iter scene.traceDepth))
              (generateRays ext scene.cam iter scene.traceDepth))).2
          (compactStage (pixelcount scene.cam)
            (shadeStage ext iter 0 scene.materials (pixelcount scene.cam)
              (intersectStageKD ext scene t0 (pixelcount scene.cam)
                (generateRays ext scene.cam iter scene.traceDepth))
              (generateRays ext scene.cam iter scene.traceDepth))).1) := rfl
  rw [e2, compactStage_all_dead _ _ hdead]
  simp only [if_pos (Or.inl rfl), true_or, if_true]
  rw [hSmap, finalGather_block _ (⟨5, 5, 5⟩ : Vec3) _ _ _ _ (fun i hi1 hi2 => by
    rw [if_pos (by omega : i < pixelcount scene.cam),
      hshade i (by omega), hGget i (by omega)]
    exact ⟨rfl, rfl⟩),
    if_pos ⟨Nat.zero_le p, by omega⟩]
  rw [List.getElem?_replicate, if_pos hp]
  show some (Vec3.zero + ⟨5, 5, 5⟩) = _
  norm_num [Vec3.add_def, Vec3.zero]


/-- Witness for C7 on the concrete one-sphere scene (`sceneEmissiveDemo`,
sphere hit at t = 2, bounds always hit, budget 1): pixel 0 accumulates
exactly (5,5,5). -/
theorem emissive_sphere_pixel_radiance_witness :
    (∀ r : Ray, extDemo.boundsIT ⟨Vec3.zero, Vec3.zero⟩ r ≠ -1) ∧
    (∀ r : Ray, 0 < (extDemo.sphereIT ⟨GeomType.SPHERE, 0, []⟩ r).t ∧
      (extDemo.sphereIT ⟨GeomType.SPHERE, 0, []⟩ r).t < FLT_MAX) ∧
    (pathtraceIter extDemo sceneEmissiveDemo false 0 0
        (List.replicate (pixelcount sceneEmissiveDemo.cam) Vec3.zero))[0]? =
      some ⟨5, 5, 5⟩ :=
  ⟨fun _ => by norm_num [extDemo],
    fun _ => by norm_num [extDemo, FLT_MAX],
    emissive_sphere_pixel_radiance extDemo sceneEmissiveDemo 0 0
      ⟨GeomType.SPHERE, 0, []⟩ matEmissive5 ⟨Vec3.zero, Vec3.zero⟩
      rfl rfl rfl rfl rfl rfl rfl
      (fun _ => by norm_num [extDemo])
      (fun _ => by norm_num [extDemo, FLT_MAX])
      (by norm_num [sceneEmissiveDemo]) 0 (by norm_num [sceneEmissiveDemo, cam1x1, pixelcount])⟩

theorem flattenAt_length : ∀ (t : KDT) (i : ℕ), (flattenAt t i).length = t.size := by
  intro t
  induction t with
  | leaf b off cnt => intro i; rfl
  | node b l r ihl ihr =>
    intro i
    simp [flattenAt, KDT.size, ihl, ihr]
    omega

theorem KDT.visits_le_size (ext : Externals) (ray : Ray) :
    ∀ t : KDT, t.visits ext ray ≤ t.size := by
  intro t
  induction t with
  | leaf b off cnt => simp [KDT.visits, KDT.size]
  | node b l r ihl ihr =>
    simp only [KDT.visits, KDT.size]
    split
    · omega
    · omega

theorem segAt_leaf {flat : List LinearKDNode} {i : ℕ} {b : Bounds} {off cnt : ℕ}
    (h : segAt flat i (flattenAt (KDT.leaf b off cnt) i)) :
    flat.getD i default = ⟨b, off, 0, cnt⟩ := by
  have := h 0 (by simp [flattenAt])
  simpa [flattenAt] using this

theorem segAt_node_head {flat : List LinearKDNode} {i : ℕ} {b : Bounds} {l r : KDT}
    (h : segAt flat i (flattenAt (KDT.node b l r) i)) :
    flat.getD i default = ⟨b, 0, i + 1 + l.size, 0⟩ := by
  have := h 0 (by simp [flattenAt])
  simpa [flattenAt] using this

theorem segAt_node_left {flat : List LinearKDNode} {i : ℕ} {b : Bounds} {l r : KDT}
    (h : segAt flat i (flattenAt (KDT.node b l r) i)) :
    segAt flat (i + 1) (flattenAt l (i + 1)) := by
  intro k hk
  rw [flattenAt_length] at hk
  have hlen : 1 + k < (flattenAt (KDT.node b l r) i).length := by
    rw [flattenAt_length]
    simp [KDT.size]
    omega
  have hstep := h (1 + k) hlen
  rw [show i + (1 + k) = i + 1 + k from by omega] at hstep
  rw [hstep, Nat.add_comm 1 k]
  rw [flattenAt, List.getD_cons_succ,
    List.getD_append _ _ _ k (by rw [flattenAt_length]; exact hk)]

theorem segAt_node_right {flat : List LinearKDNode} {i : ℕ} {b : Bounds} {l r : KDT}
    (h : segAt flat i (flattenAt (KDT.node b l r) i)) :
    segAt flat (i + 1 + l.size) (flattenAt r (i + 1 + l.size)) := by
  intro k hk
  rw [flattenAt_length] at hk
  have hlen : 1 + (l.size + k) < (flattenAt (KDT.node b l r) i).length := by
    rw [flattenAt_length]
    simp [KDT.size]
    omega
  have hstep := h (1 + (l.size + k)) hlen
  rw [show i + (1 + (l.size + k)) = i + 1 + l.size + k from by omega] at hstep
  rw [hstep, show 1 + (l.size + k) = l.size + k + 1 from by omega]
  rw [flattenAt, List.getD_cons_succ,
    List.getD_append_right _ _ _ (l.size + k) (by rw [flattenAt_length]; omega)]
  rw [flattenAt_length]
  congr 1
  omega

/-- Compositional behavior of the explicit-stack traversal loop: on a
flattened array containing the subtree `t` at position `i`, the loop run
with exactly `t`'s visit count of fuel (plus `f`) folds the subtree's
leaf loops in depth-first order and then either finishes (empty stack) or
pops and continues with the remaining fuel; the push-bound flag collects
whether every push happened below the 64-entry capacity. -/
theorem kdLoopRun_run_tree (ext : Externals) (geoms : List Geom) (ray : Ray)
    (flat : List LinearKDNode) :
    ∀ t : KDT, t.leavesPos = true →
      ∀ i : ℕ, segAt flat i (flattenAt t i) →
      ∀ (f : ℕ) (stack : List ℕ) (acc : IsectAcc) (ok : Bool),
        kdLoopRun ext geoms ray flat (t.visits ext ray + f) i stack acc ok =
          (match stack with
            | [] => ⟨processTree ext geoms ray t acc, true,
                ok && t.pushes ext ray stack.length⟩
            | c :: rest => kdLoopRun ext geoms ray flat f c rest
                (processTree ext geoms ray t acc)
                (ok && t.pushes ext ray stack.length)) := by
  intro t
  induction t with
  | leaf b off cnt =>
    intro hwf i hseg f stack acc ok
    have hnode := segAt_leaf hseg
    have hcnt : 0 < cnt := by simpa [KDT.leavesPos] using hwf
    rw [show KDT.visits ext ray (KDT.leaf b off cnt) + f = f + 1 from by
      simp [KDT.visits]; omega]
    by_cases hb : ext.boundsIT b ray ≠ -1 <;>
      cases stack <;>
        simp only [kdLoopRun, hnode, hcnt, hb, processTree, KDT.pushes,
          if_true, if_false, ne_eq, not_false_eq_true, not_true_eq_false,
          Bool.and_true, if_pos, List.length_cons]
  | node b l r ihl ihr =>
    intro hwf i hseg f stack acc ok
    have hL : l.leavesPos = true := by
      have := hwf
      simp only [KDT.leavesPos, Bool.and_eq_true] at this
      exact this.1
    have hR : r.leavesPos = true := by
      have := hwf
      simp only [KDT.leavesPos, Bool.and_eq_true] at this
      exact this.2
    have hnode := segAt_node_head hseg
    have hsegl := segAt_node_left hseg
    have hsegr := segAt_node_right hseg
    by_cases hb : ext.boundsIT b ray ≠ -1
    · rw [show KDT.visits ext ray (KDT.node b l r) + f =
        (l.visits ext ray + (r.visits ext ray + f)) + 1 from by
          simp [KDT.visits, hb]; omega]
      simp only [kdLoopRun, hnode, hb, ne_eq, not_false_eq_true, if_true,
        Nat.lt_irrefl, if_false]
      rw [ihl hL (i + 1) hsegl (r.visits ext ray + f)
        ((i + 1 + l.size) :: stack) acc (ok && decide (stack.length < 64))]
      simp only [List.length_cons]
      rw [ihr hR (i + 1 + l.size) hsegr f stack
        (processTree ext geoms ray l acc)
        ((ok && decide (stack.length < 64)) && l.pushes ext ray (stack.length + 1))]
      cases stack with
      | nil =>
        simp [processTree, KDT.pushes, hb, Bool.and_assoc]
      | cons c rest =>
        simp only [List.length_cons]
        have hA : processTree ext geoms ray (KDT.node b l r) acc =
            processTree ext geoms ray r (processTree ext geoms ray l acc) := by
          simp [processTree, hb]
        have heq : (ok && decide (rest.length + 1 < 64) &&
            KDT.pushes ext ray l (rest.length + 1 + 1) &&
            KDT.pushes ext ray r (rest.length + 1)) =
            (ok && KDT.pushes ext ray (KDT.node b l r) (rest.length + 1)) := by
          simp [KDT.pushes, hb, Bool.and_assoc]
        rw [hA, heq]
    · have hb' : ext.boundsIT b ray = -1 := not_ne_iff.mp hb
      have hnode2 : flat[i]?.getD default =
          (⟨b, 0, i + 1 + l.size, 0⟩ : LinearKDNode) := by
        rw [← List.getD_eq_getElem?_getD]
        exact hnode
      rw [show KDT.visits ext ray (KDT.node b l r) + f = f + 1 from by
        simp [KDT.visits, hb]; omega]
      cases stack <;>
        simp [kdLoopRun, hnode, hnode2, hb', processTree, KDT.pushes]

theorem KDT.pushes_of_depth (ext : Externals) (ray : Ray) :
    ∀ t : KDT, ∀ k : ℕ, k + t.depth ≤ 64 → t.pushes ext ray k = true := by
  intro t
  induction t with
  | leaf b off cnt => intro k _; rfl
  | node b l r ihl ihr =>
    intro k hk
    simp only [KDT.depth] at hk
    simp only [KDT.pushes]
    split
    · have h1 : k < 64 := by omega
      have h2 := ihl (k + 1) (by omega)
      have h3 := ihr k (by omega)
      simp [h1, h2, h3]
    · rfl

/-- C8: for every ray and every flattened acceleration structure obtained
from a well-formed tree (non-empty leaves) of depth strictly below the
64-entry stack capacity, the traversal loop of `computeIntersectionsKD`
terminates within the `kdBody` fuel budget of one visit per node plus one
(`finished = true`: the loop reached a `break`, the fuel was not
exhausted), and every push onto `nodesToVisit` happened at an in-bounds
index `toVisitOffset < 64` (`pushOK = true`). -/
theorem kd_traversal_terminates_stack_safe (ext : Externals)
    (geoms : List Geom) (ray : Ray) (t : KDT) (acc : IsectAcc)
    (hwf : t.leavesPos = true) (hd : t.depth < 64) :
    (kdLoopRun ext geoms ray (flattenAt t 0) ((flattenAt t 0).length + 1) 0 []
        acc true).finished = true ∧
    (kdLoopRun ext geoms ray (flattenAt t 0) ((flattenAt t 0).length + 1) 0 []
        acc true).pushOK = true := by
  have hv : t.visits ext ray ≤ t.size := KDT.visits_le_size ext ray t
  have hlen : (flattenAt t 0).length = t.size := flattenAt_length t 0
  have hseg : segAt (flattenAt t 0) 0 (flattenAt t 0) := by
    intro k hk
    rw [Nat.zero_add]
  rw [show (flattenAt t 0).length + 1 =
      t.visits ext ray + ((flattenAt t 0).length + 1 - t.visits ext ray) from by
    omega]
  rw [kdLoopRun_run_tree ext geoms ray (flattenAt t 0) t hwf 0 hseg
    ((flattenAt t 0).length + 1 - t.visits ext ray) [] acc true]
  refine ⟨rfl, ?_⟩
  show (true && t.pushes ext ray (List.length [])) = true
  rw [Bool.true_and]
  exact KDT.pushes_of_depth ext ray t 0 (by omega)

/-- Witness for C8 on a concrete two-leaf tree of depth 2. -/
theorem kd_traversal_terminates_stack_safe_witness :
    (KDT.node ⟨Vec3.zero, Vec3.zero⟩ (KDT.leaf ⟨Vec3.zero, Vec3.zero⟩ 0 1)
        (KDT.leaf ⟨Vec3.zero, Vec3.zero⟩ 1 1)).leavesPos = true ∧
    (KDT.node ⟨Vec3.zero, Vec3.zero⟩ (KDT.leaf ⟨Vec3.zero, Vec3.zero⟩ 0 1)
        (KDT.leaf ⟨Vec3.zero, Vec3.zero⟩ 1 1)).depth < 64 ∧
    (kdLoopRun extDemo geomsKDDemo ⟨Vec3.zero, Vec3.one⟩
        (flattenAt (KDT.node ⟨Vec3.zero, Vec3.zero⟩
          (KDT.leaf ⟨Vec3.zero, Vec3.zero⟩ 0 1)
          (KDT.leaf ⟨Vec3.zero, Vec3.zero⟩ 1 1)) 0)
        ((flattenAt (KDT.node ⟨Vec3.zero, Vec3.zero⟩
          (KDT.leaf ⟨Vec3.zero, Vec3.zero⟩ 0 1)
          (KDT.leaf ⟨Vec3.zero, Vec3.zero⟩ 1 1)) 0).length + 1) 0 []
        ⟨0, Vec3.zero, Vec3.zero, FLT_MAX, -1, Vec3.zero, Vec3.zero⟩
        true).finished = true :=
  ⟨by decide, by decide,
    (kd_traversal_terminates_stack_safe extDemo geomsKDDemo ⟨Vec3.zero, Vec3.one⟩
      (KDT.node ⟨Vec3.zero, Vec3.zero⟩ (KDT.leaf ⟨Vec3.zero, Vec3.zero⟩ 0 1)
        (KDT.leaf ⟨Vec3.zero, Vec3.zero⟩ 1 1))
      ⟨0, Vec3.zero, Vec3.zero, FLT_MAX, -1, Vec3.zero, Vec3.zero⟩
      (by decide) (by decide)).1⟩

theorem minScan_fst_le (ext : Externals) (geoms : List Geom) (ray : Ray) :
    ∀ (L : List ℕ) (s : ℚ × ℤ), (minScan ext geoms ray L s).1 ≤ s.1 := by
  intro L
  induction L with
  | nil => intro s; exact le_refl _
  | cons j L ih =>
    intro s
    show (minScan ext geoms ray L (minScanStep ext geoms ray s j)).1 ≤ s.1
    refine le_trans (ih _) ?_
    unfold minScanStep
    split
    · next h => exact le_of_lt h.2
    · exact le_refl _

theorem minScan_fst_le_mem (ext : Externals) (geoms : List Geom) (ray : Ray) :
    ∀ (L : List ℕ) (s : ℚ × ℤ) (j : ℕ), j ∈ L → 0 < tOf ext geoms ray j →
      (minScan ext geoms ray L s).1 ≤ tOf ext geoms ray j := by
  intro L
  induction L with
  | nil => intro s j hj; exact absurd hj (List.not_mem_nil j)
  | cons a L ih =>
    intro s j hj hpos
    rcases List.mem_cons.mp hj with rfl | hj'
    · show (minScan ext geoms ray L (minScanStep ext geoms ray s j)).1 ≤ _
      refine le_trans (minScan_fst_le ext geoms ray L _) ?_
      unfold minScanStep
      split
      · exact le_refl _
      · next h =>
        push_neg at h
        exact h hpos
    · exact ih _ j hj' hpos

theorem minScan_cases (ext : Externals) (geoms : List Geom) (ray : Ray) :
    ∀ (L : List ℕ) (s : ℚ × ℤ),
      minScan ext geoms ray L s = s ∨
      ∃ j ∈ L, 0 < tOf ext geoms ray j ∧
        minScan ext geoms ray L s = (tOf ext geoms ray j, (j : ℤ)) ∧
        tOf ext geoms ray j < s.1 := by
  intro L
  induction L with
  | nil => intro s; exact Or.inl rfl
  | cons a L ih =>
    intro s
    have hstep : minScan ext geoms ray (a :: L) s =
        minScan ext geoms ray L (minScanStep ext geoms ray s a) := rfl
    rw [hstep]
    by_cases hc : 0 < tOf ext geoms ray a ∧ tOf ext geoms ray a < s.1
    · have hs : minScanStep ext geoms ray s a = (tOf ext geoms ray a, (a : ℤ)) := by
        unfold minScanStep
        rw [if_pos hc]
      rw [hs]
      rcases ih (tOf ext geoms ray a, (a : ℤ)) with h | ⟨j, hj, hpos, heq, hlt⟩
      · exact Or.inr ⟨a, List.mem_cons_self a L, hc.1, h, hc.2⟩
      · exact Or.inr ⟨j, List.mem_cons_of_mem a hj, hpos, heq, lt_trans hlt hc.2⟩
    · have hs : minScanStep ext geoms ray s a = s := by
        unfold minScanStep
        rw [if_neg hc]
      rw [hs]
      rcases ih s with h | ⟨j, hj, hpos, heq, hlt⟩
      · exact Or.inl h
      · exact Or.inr ⟨j, List.mem_cons_of_mem a hj, hpos, heq, hlt⟩

theorem bruteStep_proj (ext : Externals) (geoms : List Geom) (ray : Ray)
    (acc : IsectAcc) (c : Vec3) (j : ℕ) :
    ((bruteStep ext geoms ray (acc, c) j).1.t_min,
      (bruteStep ext geoms ray (acc, c) j).1.hit) =
      minScanStep ext geoms ray (acc.t_min, acc.hit) j := by
  unfold bruteStep minScanStep tOf
  cases h : (geoms.getD j default).type <;>
    · simp only [h]
      split_ifs <;> rfl

theorem bruteFold_proj (ext : Externals) (geoms : List Geom) (ray : Ray) :
    ∀ (L : List ℕ) (acc : IsectAcc) (c : Vec3),
      ((L.foldl (bruteStep ext geoms ray) (acc, c)).1.t_min,
        (L.foldl (bruteStep ext geoms ray) (acc, c)).1.hit) =
        minScan ext geoms ray L (acc.t_min, acc.hit) := by
  intro L
  induction L with
  | nil => intro acc c; rfl
  | cons j L ih =>
    intro acc c
    have h1 : (j :: L).foldl (bruteStep ext geoms ray) (acc, c) =
        L.foldl (bruteStep ext geoms ray)
          ((bruteStep ext geoms ray (acc, c) j).1,
            (bruteStep ext geoms ray (acc, c) j).2) := by
      rw [List.foldl_cons]
    have h2 : minScan ext geoms ray (j :: L) (acc.t_min, acc.hit) =
        minScan ext geoms ray L (minScanStep ext geoms ray (acc.t_min, acc.hit) j) := rfl
    rw [h1, h2, ← bruteStep_proj ext geoms ray acc c j]
    exact ih _ _

theorem kdLeafStep_proj (ext : Externals) (geoms : List Geom) (ray : Ray)
    (acc : IsectAcc) (j : ℕ)
    (hj : (geoms.getD j default).type = GeomType.CUBE ∨
      (geoms.getD j default).type = GeomType.SPHERE ∨
      (geoms.getD j default).type = GeomType.TRIANGLE) :
    ((kdLeafStep ext geoms ray acc j).t_min, (kdLeafStep ext geoms ray acc j).hit) =
      minScanStep ext geoms ray (acc.t_min, acc.hit) j := by
  unfold kdLeafStep minScanStep tOf
  rcases hj with h | h | h <;>
    · simp only [h]
      split_ifs <;> rfl

theorem kdLeafFoldList_proj (ext : Externals) (geoms : List Geom) (ray : Ray) :
    ∀ (L : List ℕ) (acc : IsectAcc),
      (∀ j ∈ L, (geoms.getD j default).type = GeomType.CUBE ∨
        (geoms.getD j default).type = GeomType.SPHERE ∨
        (geoms.getD j default).type = GeomType.TRIANGLE) →
      ((L.foldl (kdLeafStep ext geoms ray) acc).t_min,
        (L.foldl (kdLeafStep ext geoms ray) acc).hit) =
        minScan ext geoms ray L (acc.t_min, acc.hit) := by
  intro L
  induction L with
  | nil => intro acc _; rfl
  | cons j L ih =>
    intro acc hL
    have h1 : (j :: L).foldl (kdLeafStep ext geoms ray) acc =
        L.foldl (kdLeafStep ext geoms ray) (kdLeafStep ext geoms ray acc j) := by
      rw [List.foldl_cons]
    have h2 : minScan ext geoms ray (j :: L) (acc.t_min, acc.hit) =
        minScan ext geoms ray L (minScanStep ext geoms ray (acc.t_min, acc.hit) j) := rfl
    rw [h1, h2, ← kdLeafStep_proj ext geoms ray acc j (hL j (List.mem_cons_self j L))]
    exact ih _ (fun a ha => hL a (List.mem_cons_of_mem j ha))

theorem processTree_proj (ext : Externals) (geoms : List Geom) (ray : Ray) :
    ∀ (t : KDT) (acc : IsectAcc),
      (∀ j ∈ t.covered, (geoms.getD j default).type = GeomType.CUBE ∨
        (geoms.getD j default).type = GeomType.SPHERE ∨
        (geoms.getD j default).type = GeomType.TRIANGLE) →
      ((processTree ext geoms ray t acc).t_min,
        (processTree ext geoms ray t acc).hit) =
        minScan ext geoms ray (t.processed ext ray) (acc.t_min, acc.hit) := by
  intro t
  induction t with
  | leaf b off cnt =>
    intro acc htypes
    have hpt : processTree ext geoms ray (KDT.leaf b off cnt) acc =
        if ext.boundsIT b ray ≠ -1 then kdLeafFold ext geoms ray off cnt acc
        else acc := rfl
    by_cases hb : ext.boundsIT b ray ≠ -1
    · rw [hpt, if_pos hb]
      rw [show KDT.processed ext ray (KDT.leaf b off cnt) = List.range' off cnt from by
        simp [KDT.processed, hb]]
      exact kdLeafFoldList_proj ext geoms ray (List.range' off cnt) acc
        (fun j hj => htypes j (by simpa [KDT.covered] using hj))
    · rw [hpt, if_neg hb]
      rw [show KDT.processed ext ray (KDT.leaf b off cnt) = [] from by
        simp [KDT.processed, hb]]
      rfl
  | node b l r ihl ihr =>
    intro acc htypes
    have htl : ∀ j ∈ l.covered, (geoms.getD j default).type = GeomType.CUBE ∨
        (geoms.getD j default).type = GeomType.SPHERE ∨
        (geoms.getD j default).type = GeomType.TRIANGLE :=
      fun j hj => htypes j (by simp [KDT.covered]; exact Or.inl hj)
    have htr : ∀ j ∈ r.covered, (geoms.getD j default).type = GeomType.CUBE ∨
        (geoms.getD j default).type = GeomType.SPHERE ∨
        (geoms.getD j default).type = GeomType.TRIANGLE :=
      fun j hj => htypes j (by simp [KDT.covered]; exact Or.inr hj)
    have hpt : processTree ext geoms ray (KDT.node b l r) acc =
        if ext.boundsIT b ray ≠ -1 then
          processTree ext geoms ray r (processTree ext geoms ray l acc)
        else acc := rfl
    by_cases hb : ext.boundsIT b ray ≠ -1
    · rw [hpt, if_pos hb]
      rw [show KDT.processed ext ray (KDT.node b l r) =
        l.processed ext ray ++ r.processed ext ray from by
          simp [KDT.processed, hb]]
      rw [show minScan ext geoms ray (l.processed ext ray ++ r.processed ext ray)
          (acc.t_min, acc.hit) =
        minScan ext geoms ray (r.processed ext ray)
          (minScan ext geoms ray (l.processed ext ray) (acc.t_min, acc.hit)) from by
          simp [minScan, List.foldl_append]]
      rw [← ihl acc htl]
      exact ihr (processTree ext geoms ray l acc) htr
    · rw [hpt, if_neg hb]
      rw [show KDT.processed ext ray (KDT.node b l r) = [] from by
        simp [KDT.processed, hb]]
      rfl

theorem KDT.processed_subset_covered (ext : Externals) (ray : Ray) :
    ∀ t : KDT, ∀ j ∈ t.processed ext ray, j ∈ t.covered := by
  intro t
  induction t with
  | leaf b off cnt =>
    intro j hj
    simp only [KDT.processed] at hj
    by_cases hb : ext.boundsIT b ray ≠ -1
    · rw [if_pos hb] at hj
      simpa [KDT.covered] using hj
    · rw [if_neg hb] at hj
      exact absurd hj (List.not_mem_nil j)
  | node b l r ihl ihr =>
    intro j hj
    simp only [KDT.processed] at hj
    by_cases hb : ext.boundsIT b ray ≠ -1
    · rw [if_pos hb] at hj
      rcases List.mem_append.mp hj with h | h
      · simp [KDT.covered]
        exact Or.inl (ihl j h)
      · simp [KDT.covered]
        exact Or.inr (ihr j h)
    · rw [if_neg hb] at hj
      exact absurd hj (List.not_mem_nil j)

theorem KDT.mem_processed_of_pos (ext : Externals) (geoms : List Geom) (ray : Ray) :
    ∀ t : KDT, t.consOK ext geoms ray = true →
      ∀ j ∈ t.covered, 0 < tOf ext geoms ray j → j ∈ t.processed ext ray := by
  intro t
  induction t with
  | leaf b off cnt =>
    intro hcons j hj hpos
    simp only [KDT.processed]
    by_cases hb : ext.boundsIT b ray ≠ -1
    · rw [if_pos hb]
      simpa [KDT.covered] using hj
    · exfalso
      have hb' : ext.boundsIT b ray = -1 := not_ne_iff.mp hb
      simp only [KDT.consOK, hb', eq_self_iff_true, if_true,
        List.all_eq_true] at hcons
      have h2 := hcons j (by simpa [KDT.covered] using hj)
      rw [decide_eq_true_eq] at h2
      exact absurd hpos (not_lt.mpr h2)
  | node b l r ihl ihr =>
    intro hcons j hj hpos
    simp only [KDT.consOK, Bool.and_eq_true] at hcons
    obtain ⟨⟨hctop, hcl⟩, hcr⟩ := hcons
    simp only [KDT.processed]
    by_cases hb : ext.boundsIT b ray ≠ -1
    · rw [if_pos hb]
      simp only [KDT.covered] at hj
      rcases List.mem_append.mp hj with h | h
      · exact List.mem_append.mpr (Or.inl (ihl hcl j h hpos))
      · exact List.mem_append.mpr (Or.inr (ihr hcr j h hpos))
    · exfalso
      have hb' : ext.boundsIT b ray = -1 := not_ne_iff.mp hb
      simp only [hb', eq_self_iff_true, if_true, List.all_eq_true] at hctop
      have h2 := hctop j hj
      rw [decide_eq_true_eq] at h2
      exact absurd hpos (not_lt.mpr h2)

theorem buildRecord_t (ext : Externals) (geoms : List Geom)
    (materials : List Material) (textures : List Vec3) (acc : IsectAcc) :
    (buildRecord ext geoms materials textures acc).t =
      if acc.hit = -1 then (-1 : ℚ) else acc.t_min := by
  unfold buildRecord
  by_cases h : acc.hit = -1
  · rw [if_pos h, if_pos h]
  · rw [if_neg h, if_neg h]
    simp only [apply_ite ShadeableIntersection.t]
    split <;> rfl

theorem buildRecord_materialId (ext : Externals) (geoms : List Geom)
    (materials : List Material) (textures : List Vec3) (acc : IsectAcc) :
    (buildRecord ext geoms materials textures acc).materialId =
      if acc.hit = -1 then 0
      else (geoms.getD acc.hit.toNat default).materialid := by
  unfold buildRecord
  by_cases h : acc.hit = -1
  · rw [if_pos h, if_pos h]
    rfl
  · rw [if_neg h, if_neg h]
    simp only [apply_ite ShadeableIntersection.materialId]
    split <;> rfl

theorem kdBody_processTree (ext : Externals) (geoms : List Geom)
    (materials : List Material) (textures : List Vec3) (t : KDT) (t0 : ℚ)
    (p : PathSegment) (hwf : t.leavesPos = true) :
    kdBody ext geoms materials textures (flattenAt t 0) t0 p =
      buildRecord ext geoms materials textures
        (processTree ext geoms p.ray t
          ⟨t0, Vec3.zero, Vec3.zero, FLT_MAX, -1, Vec3.zero, Vec3.zero⟩) := by
  have hv := KDT.visits_le_size ext p.ray t
  have hlen := flattenAt_length t 0
  have hseg : segAt (flattenAt t 0) 0 (flattenAt t 0) := by
    intro k hk
    rw [Nat.zero_add]
  have hkb : kdBody ext geoms materials textures (flattenAt t 0) t0 p =
      buildRecord ext geoms materials textures
        (kdLoopRun ext geoms p.ray (flattenAt t 0) ((flattenAt t 0).length + 1)
          0 [] ⟨t0, Vec3.zero, Vec3.zero, FLT_MAX, -1, Vec3.zero, Vec3.zero⟩
          true).acc := rfl
  rw [hkb, show (flattenAt t 0).length + 1 =
      t.visits ext p.ray + ((flattenAt t 0).length + 1 - t.visits ext p.ray) from by
    omega]
  rw [kdLoopRun_run_tree ext geoms p.ray (flattenAt t 0) t hwf 0 hseg
    ((flattenAt t 0).length + 1 - t.visits ext p.ray) []
    ⟨t0, Vec3.zero, Vec3.zero, FLT_MAX, -1, Vec3.zero, Vec3.zero⟩ true]

theorem bruteBody_buildRecord (ext : Externals) (geoms : List Geom)
    (materials : List Material) (textures : List Vec3) (p : PathSegment) :
    bruteBody ext geoms materials textures p =
      buildRecord ext geoms materials textures
        ((List.range geoms.length).foldl (bruteStep ext geoms p.ray)
          (⟨0, Vec3.zero, Vec3.zero, FLT_MAX, -1, Vec3.zero, Vec3.zero⟩,
            Vec3.one)).1 := by
  unfold bruteBody
  by_cases h : ((List.range geoms.length).foldl (bruteStep ext geoms p.ray)
      (⟨0, Vec3.zero, Vec3.zero, FLT_MAX, -1, Vec3.zero, Vec3.zero⟩,
        Vec3.one)).1.hit = -1
  · rw [if_pos h]
    have hb : buildRecord ext geoms materials textures
        ((List.range geoms.length).foldl (bruteStep ext geoms p.ray)
          (⟨0, Vec3.zero, Vec3.zero, FLT_MAX, -1, Vec3.zero, Vec3.zero⟩,
            Vec3.one)).1 = { zeroSI with t := -1 } := by
      unfold buildRecord
      rw [if_pos h]
    rw [hb]
  · rw [if_neg h]

/-- C4 (amended): for scenes whose primitives all have one of the types
the KD leaf loop dispatches (box, sphere, triangle), with a flattened
structure whose non-empty leaves cover exactly the geometry list and
whose bounds tests never cull a hitting primitive, the accelerated kernel
and the brute-force kernel report the same nearest-hit `t` for every path
and every initial value `t0` of the KD kernel's uninitialized local
`float t`; and if the nearest positive hit distance is attained by a
unique primitive (uniqueness is assumed only at the minimum: any two
positive hits at a common distance that is least among all positive hits
must be the same primitive), they also report the same material id. -/
theorem kd_brute_agree_on_handled_types (ext : Externals) (geoms : List Geom)
    (materials : List Material) (textures : List Vec3) (p : PathSegment)
    (t : KDT) (t0 : ℚ)
    (hwf : t.leavesPos = true)
    (htypes : ∀ j ∈ t.covered, (geoms.getD j default).type = GeomType.CUBE ∨
      (geoms.getD j default).type = GeomType.SPHERE ∨
      (geoms.getD j default).type = GeomType.TRIANGLE)
    (hcover : ∀ j, j < geoms.length → j ∈ t.covered)
    (hbound : ∀ j ∈ t.covered, j < geoms.length)
    (hcons : t.consOK ext geoms p.ray = true) :
    (kdBody ext geoms materials textures (flattenAt t 0) t0 p).t =
      (bruteBody ext geoms materials textures p).t ∧
    ((∀ j j', j < geoms.length → j' < geoms.length →
        0 < tOf ext geoms p.ray j → 0 < tOf ext geoms p.ray j' →
        tOf ext geoms p.ray j = tOf ext geoms p.ray j' →
        (∀ k, k < geoms.length → 0 < tOf ext geoms p.ray k →
          tOf ext geoms p.ray j ≤ tOf ext geoms p.ray k) →
        j = j') →
      (kdBody ext geoms materials textures (flattenAt t 0) t0 p).materialId =
        (bruteBody ext geoms materials textures p).materialId) := by
  have hK := kdBody_processTree ext geoms materials textures t t0 p hwf
  have hBr := bruteBody_buildRecord ext geoms materials textures p
  set PK := processTree ext geoms p.ray t
    ⟨t0, Vec3.zero, Vec3.zero, FLT_MAX, -1, Vec3.zero, Vec3.zero⟩ with hPK
  set FB := ((List.range geoms.length).foldl (bruteStep ext geoms p.ray)
    (⟨0, Vec3.zero, Vec3.zero, FLT_MAX, -1, Vec3.zero, Vec3.zero⟩,
      Vec3.one)).1 with hFB
  set A := minScan ext geoms p.ray (t.processed ext p.ray) (FLT_MAX, -1) with hA
  set B := minScan ext geoms p.ray (List.range geoms.length) (FLT_MAX, -1) with hB
  have hKproj : (PK.t_min, PK.hit) = A := by
    rw [hA, hPK]
    exact processTree_proj ext geoms p.ray t
      ⟨t0, Vec3.zero, Vec3.zero, FLT_MAX, -1, Vec3.zero, Vec3.zero⟩ htypes
  have hBproj : (FB.t_min, FB.hit) = B := by
    rw [hB, hFB]
    exact bruteFold_proj ext geoms p.ray (List.range geoms.length)
      ⟨0, Vec3.zero, Vec3.zero, FLT_MAX, -1, Vec3.zero, Vec3.zero⟩ Vec3.one
  have hKt : PK.t_min = A.1 := by rw [← hKproj]
  have hKh : PK.hit = A.2 := by rw [← hKproj]
  have hBt : FB.t_min = B.1 := by rw [← hBproj]
  have hBh : FB.hit = B.2 := by rw [← hBproj]
  have hsub : ∀ j ∈ t.processed ext p.ray, j ∈ List.range geoms.length :=
    fun j hj => List.mem_range.mpr
      (hbound j (KDT.processed_subset_covered ext p.ray t j hj))
  have hsup : ∀ j, j ∈ List.range geoms.length → 0 < tOf ext geoms p.ray j →
      j ∈ t.processed ext p.ray :=
    fun j hj hpos => KDT.mem_processed_of_pos ext geoms p.ray t hcons j
      (hcover j (List.mem_range.mp hj)) hpos
  have hcasesA := minScan_cases ext geoms p.ray (t.processed ext p.ray) (FLT_MAX, -1)
  have hcasesB := minScan_cases ext geoms p.ray (List.range geoms.length) (FLT_MAX, -1)
  rw [← hA] at hcasesA
  rw [← hB] at hcasesB
  have ht : A.1 = B.1 := by
    apply le_antisymm
    · rcases hcasesB with h | ⟨j, hj, hpos, heq, _⟩
      · rw [h, hA]
        exact minScan_fst_le ext geoms p.ray (t.processed ext p.ray) (FLT_MAX, -1)
      · rw [heq, hA]
        exact minScan_fst_le_mem ext geoms p.ray (t.processed ext p.ray)
          (FLT_MAX, -1) j (hsup j hj hpos) hpos
    · rcases hcasesA with h | ⟨j, hj, hpos, heq, _⟩
      · rw [h, hB]
        exact minScan_fst_le ext geoms p.ray (List.range geoms.length) (FLT_MAX, -1)
      · rw [heq, hB]
        exact minScan_fst_le_mem ext geoms p.ray (List.range geoms.length)
          (FLT_MAX, -1) j (hsub j hj) hpos
  refine ⟨?_, ?_⟩
  · rw [hK, hBr, buildRecord_t, buildRecord_t, hKh, hKt, hBh, hBt]
    rcases hcasesA with hA' | ⟨j, hjm, hjpos, hAeq, hjlt⟩ <;>
      rcases hcasesB with hB' | ⟨j', hjm', hjpos', hBeq, hjlt'⟩
    · rw [hA', hB']
    · exfalso
      rw [hA'] at ht
      rw [hBeq] at ht
      exact absurd ht.symm (ne_of_lt hjlt')
    · exfalso
      rw [hAeq, hB'] at ht
      exact absurd ht (ne_of_lt hjlt)
    · rw [hAeq, hBeq]
      rw [if_neg (by omega), if_neg (by omega)]
      rw [hAeq, hBeq] at ht
      exact ht
  · intro huniq
    rw [hK, hBr, buildRecord_materialId, buildRecord_materialId, hKh, hBh]
    rcases hcasesA with hA' | ⟨j, hjm, hjpos, hAeq, hjlt⟩ <;>
      rcases hcasesB with hB' | ⟨j', hjm', hjpos', hBeq, hjlt'⟩
    · rw [hA', hB']
    · exfalso
      rw [hA'] at ht
      rw [hBeq] at ht
      exact absurd ht.symm (ne_of_lt hjlt')
    · exfalso
      rw [hAeq, hB'] at ht
      exact absurd ht (ne_of_lt hjlt)
    · have hmin : ∀ k, k < geoms.length → 0 < tOf ext geoms p.ray k →
          tOf ext geoms p.ray j ≤ tOf ext geoms p.ray k := by
        intro k hk hkpos
        have h1 : B.1 ≤ tOf ext geoms p.ray k := by
          rw [hB]
          exact minScan_fst_le_mem ext geoms p.ray (List.range geoms.length)
            (FLT_MAX, -1) k (List.mem_range.mpr hk) hkpos
        have h2 : tOf ext geoms p.ray j = A.1 := by rw [hAeq]
        rw [h2, ht]
        exact h1
      rw [hAeq, hBeq]
      rw [if_neg (by omega), if_neg (by omega)]
      rw [hAeq, hBeq] at ht
      have hjn : j < geoms.length :=
        hbound j (KDT.processed_subset_covered ext p.ray t j hjm)
      have hjn' : j' < geoms.length := List.mem_range.mp hjm'
      have hjj : j = j' := huniq j j' hjn hjn' hjpos hjpos' ht hmin
      subst hjj
      rfl


/-- Witness for C4's amended theorem: one sphere owned by a single leaf,
bounds always hit; both kernels report the same nearest-hit t. -/
theorem kd_brute_agree_on_handled_types_witness :
    KDT.leavesPos (KDT.leaf ⟨Vec3.zero, Vec3.zero⟩ 0 1) = true ∧
    KDT.consOK extDemo [⟨GeomType.SPHERE, 0, []⟩]
      (default : PathSegment).ray (KDT.leaf ⟨Vec3.zero, Vec3.zero⟩ 0 1) = true ∧
    (kdBody extDemo [⟨GeomType.SPHERE, 0, []⟩] [matDiffuse] []
        (flattenAt (KDT.leaf ⟨Vec3.zero, Vec3.zero⟩ 0 1) 0) 0 default).t =
      (bruteBody extDemo [⟨GeomType.SPHERE, 0, []⟩] [matDiffuse] [] default).t :=
  ⟨by decide, by decide,
    (kd_brute_agree_on_handled_types extDemo [⟨GeomType.SPHERE, 0, []⟩]
      [matDiffuse] [] default (KDT.leaf ⟨Vec3.zero, Vec3.zero⟩ 0 1) 0
      (by decide) (by decide) (by decide) (by decide) (by decide)).1⟩
